import Mathlib

set_option maxRecDepth 400000

/-!
Verification development for the `moment-db` date/time codec
(`src/index.js`).

The library formats JavaScript `Date` values into ANSI SQL temporal
literals (DATE, TIME, TIMESTAMP, INTERVAL YEAR TO MONTH, INTERVAL DAY TO
SECOND) and parses such literals back into `Date`s.

The embedding models a JavaScript `Date` as its epoch-millisecond time
value (an `Int`; all time values occurring in the library are integral),
together with a single ambient timezone offset `off` in minutes
(the value returned by `getTimezoneOffset()`: minutes to add to local
time to reach UTC, so local time = t - off*60000).  The civil-calendar
accessors (`getUTCFullYear`, `getMonth`, ...) and setters
(`setUTCMonth`, ...) are modelled by the ECMAScript specification
functions `DayFromYear`, `YearFromTime`, `MonthFromTime`,
`DateFromTime`, `MakeDay`, `MakeTime`, `MakeDate` over the proleptic
Gregorian calendar, which is what the JavaScript engine implements.

All arithmetic is exact integer arithmetic.  The JavaScript engine uses
IEEE doubles, but every quantity manipulated by this library is an
integer of magnitude below 2^53 (dates are bounded by ±8.64e15 ms and
the literal constants keep all products inside the exact range), so the
double computations coincide with the integer ones.
-/

namespace MomentDB

/-! ## The proleptic Gregorian calendar, after the ECMAScript spec -/

/-- ECMAScript `DayFromYear(y)`: the day number (days since the epoch
1970-01-01) of January 1 of year `y`.  `/` on `Int` is Euclidean
division, which agrees with `floor` for the positive literal divisors
used here, exactly as in the ECMAScript formula. -/
def dayFromYear (y : Int) : Int :=
  365 * (y - 1970) + (y - 1969) / 4 - (y - 1901) / 100 + (y - 1601) / 400

/-- ECMAScript leap-year predicate (`DaysInYear(y) = 366`). -/
def isLeap (y : Int) : Prop :=
  y % 4 = 0 ∧ (y % 100 ≠ 0 ∨ y % 400 = 0)

instance (y : Int) : Decidable (isLeap y) := by unfold isLeap; infer_instance

/-- 1 in a leap year, 0 otherwise (`DaysInYear(y) - 365`). -/
def leapN (y : Int) : Nat := if isLeap y then 1 else 0

/-- Start-of-year day offsets within one 400-year era
(`dayFromYear (400*e + yoe) - dayFromYear (400*e)`), as a `Nat`. -/
def ysE (yoe : Nat) : Nat :=
  365 * yoe + (yoe + 3) / 4 - (yoe + 99) / 100 + (yoe + 399) / 400

/-- Largest `yoe ≤ k` with `ysE yoe ≤ doe` (linear search from `k`
down).  Used to compute ECMAScript `YearFromTime`, which is specified
as "the largest integer y such that `dayFromYear(y) ≤ Day(t)`". -/
def yoeGo (doe : Nat) : Nat → Nat
  | 0 => 0
  | k + 1 => if ysE (k + 1) ≤ doe then k + 1 else yoeGo doe k

/-- Day number of the start of the 400-year era containing year
`400*e`. -/
theorem dayFromYear_era (e : Int) : dayFromYear (400 * e) = -719528 + 146097 * e := by
  unfold dayFromYear; omega

/-- `dayFromYear` within an era, in terms of `ysE`. -/
theorem dayFromYear_ysE (e : Int) (yoe : Nat) (h : yoe ≤ 400) :
    dayFromYear (400 * e + yoe) = -719528 + 146097 * e + ysE yoe := by
  unfold dayFromYear ysE; omega

/-- `dayFromYear` is strictly monotone. -/
theorem dayFromYear_lt (y1 y2 : Int) (h : y1 < y2) : dayFromYear y1 < dayFromYear y2 := by
  unfold dayFromYear; omega

theorem dayFromYear_le (y1 y2 : Int) (h : y1 ≤ y2) : dayFromYear y1 ≤ dayFromYear y2 := by
  rcases lt_or_eq_of_le h with h' | h'
  · exact le_of_lt (dayFromYear_lt _ _ h')
  · exact le_of_eq (by rw [h'])

/-- A year lasts `365 + leapN` days. -/
theorem dayFromYear_succ (y : Int) :
    dayFromYear (y + 1) = dayFromYear y + 365 + leapN y := by
  unfold dayFromYear leapN isLeap; split <;> omega

theorem ysE_zero : ysE 0 = 0 := by decide

theorem ysE_400 : ysE 400 = 146097 := by decide

/-- Specification of the search `yoeGo`. -/
theorem yoeGo_spec (doe : Nat) (k : Nat) (h : doe < ysE (k + 1)) :
    yoeGo doe k ≤ k ∧ ysE (yoeGo doe k) ≤ doe ∧ doe < ysE (yoeGo doe k + 1) := by
  induction k with
  | zero =>
    have hg : yoeGo doe 0 = 0 := rfl
    rw [hg, ysE_zero]
    exact ⟨le_refl _, Nat.zero_le _, h⟩
  | succ k ih =>
    by_cases hc : ysE (k + 1) ≤ doe
    · have hg : yoeGo doe (k + 1) = k + 1 := by unfold yoeGo; rw [if_pos hc]
      rw [hg]
      exact ⟨le_refl _, hc, h⟩
    · have hg : yoeGo doe (k + 1) = yoeGo doe k := by
        show (if ysE (k + 1) ≤ doe then k + 1 else yoeGo doe k) = yoeGo doe k
        rw [if_neg hc]
      rw [hg]
      have := ih (by omega)
      exact ⟨by omega, this.2.1, this.2.2⟩

/-- ECMAScript `YearFromTime` as a function of the day number: the
largest `y` with `dayFromYear y ≤ d`.  Computed by reducing to one
400-year era and searching. -/
def yearFromDay (d : Int) : Int :=
  400 * ((d + 719528) / 146097)
    + yoeGo ((d + 719528) % 146097).toNat 399

/-- `yearFromDay` satisfies its ECMAScript specification. -/
theorem yearFromDay_spec (d : Int) :
    dayFromYear (yearFromDay d) ≤ d ∧ d < dayFromYear (yearFromDay d + 1) := by
  unfold yearFromDay
  set e := (d + 719528) / 146097 with he
  set doe := ((d + 719528) % 146097).toNat with hdoe
  have hdlt : (doe : Int) = d + 719528 - 146097 * e := by omega
  have hdb : doe < 146097 := by omega
  have hs := yoeGo_spec doe 399 (by rw [ysE_400]; exact hdb)
  set yoe := yoeGo doe 399 with hy
  have h1 := dayFromYear_ysE e yoe (by omega)
  have h2 := dayFromYear_ysE e (yoe + 1) (by omega)
  have hcast : (400 * e + (yoe : Int) + 1) = 400 * e + ((yoe + 1 : Nat) : Int) := by
    push_cast; ring
  constructor
  · rw [h1]; omega
  · rw [hcast, h2]; omega

/-- The bracketing property determines `yearFromDay` uniquely. -/
theorem yearFromDay_eq (d : Int) (y : Int)
    (h1 : dayFromYear y ≤ d) (h2 : d < dayFromYear (y + 1)) :
    yearFromDay d = y := by
  have hs := yearFromDay_spec d
  by_contra hne
  rcases lt_or_gt_of_ne hne with hlt | hgt
  · have : dayFromYear (yearFromDay d + 1) ≤ dayFromYear y := dayFromYear_le _ _ (by omega)
    omega
  · have : dayFromYear (y + 1) ≤ dayFromYear (yearFromDay d) := dayFromYear_le _ _ (by omega)
    omega

/-- ECMAScript month start table: day-of-year on which month `m`
(0-based) begins; `L` is 1 in leap years.  Entry 12 is the year length,
used as a sentinel bound. -/
def monthStart (L : Nat) : Nat → Nat
  | 0 => 0
  | 1 => 31
  | 2 => 59 + L
  | 3 => 90 + L
  | 4 => 120 + L
  | 5 => 151 + L
  | 6 => 181 + L
  | 7 => 212 + L
  | 8 => 243 + L
  | 9 => 273 + L
  | 10 => 304 + L
  | 11 => 334 + L
  | _ => 365 + L

theorem monthStart_facts : ∀ L < 2, ∀ m < 12,
    monthStart L m ≤ monthStart L (m + 1) ∧ monthStart L (m + 1) ≤ 365 + L := by
  decide

/-- Monotonicity of the month start table over its meaningful range. -/
theorem monthStart_mono (L : Nat) (hL : L ≤ 1) (a b : Nat) (hab : a ≤ b) (hb : b ≤ 12) :
    monthStart L a ≤ monthStart L b := by
  induction b, hab using Nat.le_induction with
  | base => exact le_refl _
  | succ n hn ih =>
    have h1 := ih (by omega)
    have h2 := (monthStart_facts L (by omega) n (by omega)).1
    omega

/-- Largest `m ≤ k` with `monthStart L m ≤ doy` (linear search),
computing ECMAScript `MonthFromTime`. -/
def monthGo (L doy : Nat) : Nat → Nat
  | 0 => 0
  | k + 1 => if monthStart L (k + 1) ≤ doy then k + 1 else monthGo L doy k

theorem monthGo_spec (L doy : Nat) (k : Nat) (h : doy < monthStart L (k + 1)) :
    monthGo L doy k ≤ k ∧ monthStart L (monthGo L doy k) ≤ doy
      ∧ doy < monthStart L (monthGo L doy k + 1) := by
  induction k with
  | zero =>
    have hg : monthGo L doy 0 = 0 := rfl
    rw [hg]
    exact ⟨le_refl _, Nat.zero_le _, h⟩
  | succ k ih =>
    by_cases hc : monthStart L (k + 1) ≤ doy
    · have hg : monthGo L doy (k + 1) = k + 1 := by unfold monthGo; rw [if_pos hc]
      rw [hg]
      exact ⟨le_refl _, hc, h⟩
    · have hg : monthGo L doy (k + 1) = monthGo L doy k := by
        show (if monthStart L (k + 1) ≤ doy then k + 1 else monthGo L doy k) = monthGo L doy k
        rw [if_neg hc]
      rw [hg]
      have := ih (by omega)
      exact ⟨by omega, this.2.1, this.2.2⟩

/-- ECMAScript `DayWithinYear`. -/
def dayWithinYear (d : Int) : Nat := (d - dayFromYear (yearFromDay d)).toNat

/-- ECMAScript `MonthFromTime` (0-based month). -/
def monthFromDay (d : Int) : Nat :=
  monthGo (leapN (yearFromDay d)) (dayWithinYear d) 11

/-- ECMAScript `DateFromTime` (1-based day of month). -/
def dateFromDay (d : Int) : Nat :=
  dayWithinYear d - monthStart (leapN (yearFromDay d)) (monthFromDay d) + 1

theorem leapN_le (y : Int) : leapN y ≤ 1 := by
  unfold leapN; split <;> omega

/-- Day-of-year is below the year length. -/
theorem dayWithinYear_lt (d : Int) :
    dayWithinYear d < 365 + leapN (yearFromDay d) := by
  have hs := yearFromDay_spec d
  have := dayFromYear_succ (yearFromDay d)
  unfold dayWithinYear
  omega

/-- The month search lands in the month bracketing the day of year. -/
theorem monthFromDay_spec (d : Int) :
    monthFromDay d ≤ 11
      ∧ monthStart (leapN (yearFromDay d)) (monthFromDay d) ≤ dayWithinYear d
      ∧ dayWithinYear d < monthStart (leapN (yearFromDay d)) (monthFromDay d + 1) := by
  have hlt : dayWithinYear d < monthStart (leapN (yearFromDay d)) 12 := by
    have h1 := dayWithinYear_lt d
    have h2 : monthStart (leapN (yearFromDay d)) 12 = 365 + leapN (yearFromDay d) := rfl
    omega
  exact monthGo_spec _ _ 11 hlt

/-- ECMAScript `MakeDay(y, m, dt)`: day number of the civil triple with
arbitrary (possibly out-of-range) month and day, normalising month into
the year first. -/
def makeDay (y m dt : Int) : Int :=
  dayFromYear (y + m / 12) + (monthStart (leapN (y + m / 12)) (m % 12).toNat : Nat) + dt - 1

/-- Reassembling the extracted civil fields returns the original day
number (`MakeDay` inverts the `FromTime` accessors). -/
theorem makeDay_inv (d : Int) :
    makeDay (yearFromDay d) (monthFromDay d) (dateFromDay d) = d := by
  have hm := monthFromDay_spec d
  have hy := yearFromDay_spec d
  unfold makeDay dateFromDay
  have h12 : (monthFromDay d : Int) / 12 = 0 := by omega
  have h12b : ((monthFromDay d : Int) % 12).toNat = monthFromDay d := by omega
  rw [h12, h12b]
  simp only [add_zero]
  unfold dayWithinYear at hm ⊢
  omega

/-- Length of month `m` (0-based) in a year with leap bit `L`. -/
def monthLen (L : Nat) (m : Nat) : Nat := monthStart L (m + 1) - monthStart L m

/-- Field extraction after `makeDay` on an in-range civil triple
returns that triple. -/
theorem makeDay_fields (y : Int) (m : Nat) (dt : Int) (hm : m ≤ 11)
    (hd1 : 1 ≤ dt) (hd2 : dt ≤ monthLen (leapN y) m) :
    yearFromDay (makeDay y m dt) = y
      ∧ monthFromDay (makeDay y m dt) = m
      ∧ (dateFromDay (makeDay y m dt) : Int) = dt := by
  have hL : leapN y ≤ 1 := leapN_le y
  have hms := (monthStart_facts (leapN y) (by omega) m (by omega)).1
  have hmy := (monthStart_facts (leapN y) (by omega) m (by omega)).2
  have hmd : makeDay y m dt = dayFromYear y + (monthStart (leapN y) m : Int) + dt - 1 := by
    unfold makeDay
    have h1 : (m : Int) / 12 = 0 := by omega
    have h2 : ((m : Int) % 12).toNat = m := by omega
    rw [h1, h2]
    simp only [add_zero]
  have hyl := dayFromYear_succ y
  unfold monthLen at hd2
  have hyy : yearFromDay (makeDay y m dt) = y := by
    apply yearFromDay_eq
    · rw [hmd]; omega
    · rw [hmd]; omega
  refine ⟨hyy, ?_⟩
  have hdoy : (dayWithinYear (makeDay y m dt) : Int)
      = (monthStart (leapN y) m : Int) + dt - 1 := by
    unfold dayWithinYear
    rw [hyy, hmd]
    omega
  have hmm : monthFromDay (makeDay y m dt) = m := by
    have hspec := monthFromDay_spec (makeDay y m dt)
    rw [hyy] at hspec
    set mf := monthFromDay (makeDay y m dt) with hmf
    by_contra hne
    rcases lt_or_gt_of_ne hne with hlt | hgt
    · have : monthStart (leapN y) (mf + 1) ≤ monthStart (leapN y) m :=
        monthStart_mono (leapN y) hL (mf + 1) m (by omega) (by omega)
      omega
    · have : monthStart (leapN y) (m + 1) ≤ monthStart (leapN y) mf :=
        monthStart_mono (leapN y) hL (m + 1) mf (by omega) (by omega)
      omega
  refine ⟨hmm, ?_⟩
  unfold dateFromDay
  rw [hyy, hmm]
  omega

end MomentDB


namespace MomentDB

/-! ## Decimal rendering and JavaScript zero-padding

JavaScript renders the integers occurring in this library (all below
1e21) in plain decimal, and the source pads fields with patterns like
`('00' + n).slice(-2)`: prepend a run of `'0'`s and keep the last `k`
characters. -/

/-- Decimal digits of `n` with explicit structural fuel (so that the
kernel can evaluate it); meaningful whenever `n < fuel`. -/
def natDigitsAux : Nat → Nat → List Char
  | 0, _ => []
  | f + 1, n =>
    if n < 10 then [Nat.digitChar n]
    else natDigitsAux f (n / 10) ++ [Nat.digitChar (n % 10)]

/-- Decimal digit characters of `n`, most significant first (the
JavaScript decimal rendering of a nonnegative integer). -/
def natDigits (n : Nat) : List Char := natDigitsAux (n + 1) n

theorem natDigitsAux_succ (f n : Nat) : natDigitsAux (f + 1) n
    = if n < 10 then [Nat.digitChar n]
      else natDigitsAux f (n / 10) ++ [Nat.digitChar (n % 10)] := rfl

theorem natDigitsAux_fuel (fuel1 : Nat) : ∀ fuel2 n, n < fuel1 → n < fuel2 →
    natDigitsAux fuel1 n = natDigitsAux fuel2 n := by
  induction fuel1 with
  | zero => intro fuel2 n h1 _; omega
  | succ f1 ih =>
    intro fuel2 n h1 h2
    match fuel2, h2 with
    | f2 + 1, h2 =>
      rw [natDigitsAux_succ, natDigitsAux_succ]
      by_cases h : n < 10
      · rw [if_pos h, if_pos h]
      · rw [if_neg h, if_neg h]
        congr 1
        exact ih f2 (n / 10) (by omega) (by omega)

theorem natDigits_lt10 (n : Nat) (h : n < 10) : natDigits n = [Nat.digitChar n] := by
  unfold natDigits
  rw [natDigitsAux_succ, if_pos h]

theorem natDigits_ge10 (n : Nat) (h : 10 ≤ n) :
    natDigits n = natDigits (n / 10) ++ [Nat.digitChar (n % 10)] := by
  unfold natDigits
  rw [natDigitsAux_succ, if_neg (by omega)]
  congr 1
  exact natDigitsAux_fuel n (n / 10 + 1) (n / 10) (by omega) (by omega)

/-- Boolean digit test, `48 ≤ c ≤ 57` on the code point (the regex
class `\\d`; extensionally `Char.isDigit`). -/
def isDig (c : Char) : Bool := 48 ≤ c.toNat && c.toNat ≤ 57

/-- Numeric value of a big-endian digit string (the value JavaScript's
`parseInt` assigns to an all-digit string). -/
def digitsVal : List Char → Nat
  | [] => 0
  | c :: cs => (c.toNat - 48) * 10 ^ cs.length + digitsVal cs

theorem digitsVal_append (l1 l2 : List Char) :
    digitsVal (l1 ++ l2) = digitsVal l1 * 10 ^ l2.length + digitsVal l2 := by
  induction l1 with
  | nil => simp [digitsVal]
  | cons c cs ih =>
    simp only [List.cons_append, digitsVal, ih, List.append_eq, List.length_append, pow_add]
    ring

theorem digitChar_toNat (d : Nat) (h : d < 10) : (Nat.digitChar d).toNat - 48 = d := by
  interval_cases d <;> decide

theorem digitChar_isDig (d : Nat) (h : d < 10) : isDig (Nat.digitChar d) = true := by
  interval_cases d <;> decide

theorem natDigits_sound (n : Nat) :
    digitsVal (natDigits n) = n ∧ 0 < (natDigits n).length
      ∧ n < 10 ^ (natDigits n).length
      ∧ ∀ c ∈ natDigits n, isDig c = true := by
  induction n using Nat.strong_induction_on with
  | _ n ih =>
    by_cases h : n < 10
    · rw [natDigits_lt10 n h]
      refine ⟨?_, by simp, ?_, ?_⟩
      · simp [digitsVal, digitChar_toNat n h]
      · simpa using by omega
      · intro c hc
        simp only [List.mem_singleton] at hc
        rw [hc]; exact digitChar_isDig n h
    · rw [natDigits_ge10 n (by omega)]
      have hq := ih (n / 10) (Nat.div_lt_self (by omega) (by omega))
      refine ⟨?_, by simp, ?_, ?_⟩
      · rw [digitsVal_append]
        have h1 : digitsVal [Nat.digitChar (n % 10)] = n % 10 := by
          simp [digitsVal, digitChar_toNat (n % 10) (Nat.mod_lt n (by omega))]
        rw [h1, hq.1]
        simp only [List.length_singleton, pow_one]
        omega
      · rw [List.length_append, List.length_singleton, pow_succ]
        have := hq.2.2.1
        omega
      · intro c hc
        rcases List.mem_append.mp hc with hc | hc
        · exact hq.2.2.2 c hc
        · simp only [List.mem_singleton] at hc
          rw [hc]; exact digitChar_isDig (n % 10) (Nat.mod_lt n (by omega))

theorem isDig_toNat (c : Char) (h : isDig c = true) : 48 ≤ c.toNat ∧ c.toNat ≤ 57 := by
  simp only [isDig, Bool.and_eq_true, decide_eq_true_eq] at h
  exact h

theorem digitsVal_lt (l : List Char) (h : ∀ c ∈ l, isDig c = true) :
    digitsVal l < 10 ^ l.length := by
  induction l with
  | nil => simp [digitsVal]
  | cons c cs ih =>
    have hc := isDig_toNat c (h c (by simp))
    have hcs := ih (fun x hx => h x (by simp [hx]))
    simp only [digitsVal, List.length_cons, pow_succ]
    calc (c.toNat - 48) * 10 ^ cs.length + digitsVal cs
        ≤ 9 * 10 ^ cs.length + digitsVal cs := by
          have : c.toNat - 48 ≤ 9 := by omega
          exact Nat.add_le_add_right (Nat.mul_le_mul_right _ this) _
      _ < 10 ^ cs.length * 10 := by omega

/-- The JavaScript idiom `('00...0' + n).slice(-k)` with `k` zeros:
append the decimal rendering to `k` zeros and keep the last `k`
characters. -/
def padSliceK (k n : Nat) : List Char :=
  (List.replicate k '0' ++ natDigits n).drop
    ((List.replicate k '0' ++ natDigits n).length - k)

theorem digitsVal_replicate_zero (k : Nat) : digitsVal (List.replicate k '0') = 0 := by
  induction k with
  | zero => simp [digitsVal]
  | succ k ih => simp [List.replicate_succ, digitsVal, ih]

theorem length_padSliceK (k n : Nat) : (padSliceK k n).length = k := by
  unfold padSliceK
  have := (natDigits_sound n).2.1
  simp only [List.length_drop, List.length_append, List.length_replicate]
  omega

theorem digits_padSliceK (k n : Nat) : ∀ c ∈ padSliceK k n, isDig c = true := by
  unfold padSliceK
  intro c hc
  have hc' := List.drop_subset _ _ hc
  rcases List.mem_append.mp hc' with h | h
  · have := List.eq_of_mem_replicate h
    rw [this]; decide
  · exact (natDigits_sound n).2.2.2 c h

theorem digitsVal_padSliceK (k n : Nat) : digitsVal (padSliceK k n) = n % 10 ^ k := by
  unfold padSliceK
  set l := List.replicate k '0' ++ natDigits n with hl
  have hlen : l.length = k + (natDigits n).length := by
    rw [hl, List.length_append, List.length_replicate]
  have hdig : ∀ c ∈ l, isDig c = true := by
    intro c hc
    rcases List.mem_append.mp hc with h | h
    · have := List.eq_of_mem_replicate h
      rw [this]; decide
    · exact (natDigits_sound n).2.2.2 c h
  have hval : digitsVal l = n := by
    rw [hl, digitsVal_append, digitsVal_replicate_zero, (natDigits_sound n).1]
    simp
  have hdlen : (l.drop (l.length - k)).length = k := by
    simp only [List.length_drop]
    omega
  have hvlt : digitsVal (l.drop (l.length - k)) < 10 ^ k := by
    have h1 := digitsVal_lt (l.drop (l.length - k))
      (fun c hc => hdig c (List.drop_subset _ _ hc))
    rwa [hdlen] at h1
  have hsum : n = digitsVal (l.take (l.length - k)) * 10 ^ k
      + digitsVal (l.drop (l.length - k)) := by
    conv_lhs => rw [← hval]
    conv_lhs => rw [← List.take_append_drop (l.length - k) l]
    rw [digitsVal_append, hdlen]
  conv_rhs => rw [hsum, mul_comm]
  rw [Nat.mul_add_mod, Nat.mod_eq_of_lt hvlt]

/-- Canonical `k`-digit zero-padded decimal rendering, digit by digit
(digit of weight `10^i` at position `k-1-i`). -/
def zeroPad (k n : Nat) : List Char :=
  (List.range k).reverse.map (fun i => Nat.digitChar (n / 10 ^ i % 10))

theorem zeroPad_succ (k n : Nat) :
    zeroPad (k + 1) n = Nat.digitChar (n / 10 ^ k % 10) :: zeroPad k n := by
  unfold zeroPad
  rw [List.range_succ]
  simp

theorem zeroPad_tail (k n : Nat) :
    zeroPad (k + 1) n = zeroPad k (n / 10) ++ [Nat.digitChar (n % 10)] := by
  unfold zeroPad
  rw [List.range_succ_eq_map, List.reverse_cons, List.map_append, List.map_reverse, List.map_map]
  congr 1
  · rw [← List.map_reverse]
    apply List.map_congr_left
    intro i hi
    simp only [Function.comp_apply]
    rw [Nat.div_div_eq_div_mul, ← pow_succ']
  · simp

theorem length_zeroPad (k n : Nat) : (zeroPad k n).length = k := by
  unfold zeroPad
  simp

theorem digits_zeroPad (k n : Nat) : ∀ c ∈ zeroPad k n, isDig c = true := by
  unfold zeroPad
  intro c hc
  rcases List.mem_map.mp hc with ⟨i, _, hci⟩
  rw [← hci]
  exact digitChar_isDig _ (Nat.mod_lt _ (by omega))

theorem digitsVal_zeroPad (k n : Nat) : digitsVal (zeroPad k n) = n % 10 ^ k := by
  induction k generalizing n with
  | zero => simp [zeroPad, digitsVal, Nat.mod_one]
  | succ k ih =>
    rw [zeroPad_tail, digitsVal_append, ih]
    have h1 : digitsVal [Nat.digitChar (n % 10)] = n % 10 := by
      simp [digitsVal, digitChar_toNat (n % 10) (Nat.mod_lt n (by omega))]
    rw [h1]
    simp only [List.length_singleton, pow_one]
    rw [pow_succ, mul_comm (10 ^ k) 10, Nat.mod_mul]
    ring

/-- Zero-extension of `zeroPad` once `n` fits. -/
theorem zeroPad_ext (k n : Nat) (h : n < 10 ^ k) :
    zeroPad (k + 1) n = '0' :: zeroPad k n := by
  rw [zeroPad_succ]
  have h0 : n / 10 ^ k = 0 := Nat.div_eq_of_lt h
  rw [h0]
  rfl

/-- `zeroPad` at the exact digit count is the decimal rendering. -/
theorem zeroPad_len_eq (n : Nat) : zeroPad (natDigits n).length n = natDigits n := by
  induction n using Nat.strong_induction_on with
  | _ n ih =>
    by_cases h : n < 10
    · rw [natDigits_lt10 n h]
      show zeroPad 1 n = [Nat.digitChar n]
      rw [show (1 : Nat) = 0 + 1 from rfl, zeroPad_tail]
      simp [zeroPad, Nat.mod_eq_of_lt h]
    · rw [natDigits_ge10 n (by omega)]
      have hq := ih (n / 10) (Nat.div_lt_self (by omega) (by omega))
      rw [List.length_append, List.length_singleton, zeroPad_tail, hq]

theorem length_natDigits_le (n k : Nat) (hk : 1 ≤ k) (h : n < 10 ^ k) :
    (natDigits n).length ≤ k := by
  induction n using Nat.strong_induction_on generalizing k with
  | _ n ih =>
    by_cases h10 : n < 10
    · rw [natDigits_lt10 n h10]
      simpa using hk
    · rw [natDigits_ge10 n (by omega)]
      have hk2 : 2 ≤ k := by
        by_contra hlt
        have : k = 1 := by omega
        rw [this] at h
        simp at h
        omega
      have hdiv : n / 10 < 10 ^ (k - 1) := by
        have hpow : 10 ^ k = 10 ^ (k - 1) * 10 := by
          rw [← pow_succ]
          congr 1
          omega
        rw [hpow] at h
        exact Nat.div_lt_of_lt_mul (by omega)
      have := ih (n / 10) (Nat.div_lt_self (by omega) (by omega)) (k - 1) (by omega) hdiv
      simp only [List.length_append, List.length_singleton]
      omega

/-- When the value fits, the JavaScript slice-padding agrees with the
canonical zero-padded rendering. -/
theorem padSliceK_eq_zeroPad (k n : Nat) (h : n < 10 ^ k) :
    padSliceK k n = zeroPad k n := by
  rcases Nat.eq_zero_or_pos k with hk0 | hkpos
  · subst hk0
    simp only [pow_zero, Nat.lt_one_iff] at h
    subst h
    decide
  set L := (natDigits n).length with hLdef
  have hLk : L ≤ k := length_natDigits_le n k (by omega) h
  have hfit : n < 10 ^ L := (natDigits_sound n).2.2.1
  have hslice : padSliceK k n = List.replicate (k - L) '0' ++ natDigits n := by
    unfold padSliceK
    have hlen : (List.replicate k '0' ++ natDigits n).length - k = L := by
      simp only [List.length_append, List.length_replicate]
      omega
    rw [hlen, List.drop_append_of_le_length (by simp [hLk]), List.drop_replicate]
  rw [hslice]
  have hz : ∀ j, zeroPad (L + j) n = List.replicate j '0' ++ natDigits n := by
    intro j
    induction j with
    | zero => simpa using zeroPad_len_eq n
    | succ j ihj =>
      have : L + (j + 1) = (L + j) + 1 := by omega
      rw [this, zeroPad_ext (L + j) n
        (lt_of_lt_of_le hfit (Nat.pow_le_pow_right (by omega) (by omega))), ihj]
      rfl
  have := hz (k - L)
  have hkl : L + (k - L) = k := by omega
  rw [hkl] at this
  rw [this]

/-! ## JavaScript `Date` accessors and setters

A `Date` is its time value `t : Int` (epoch milliseconds).  The ambient
host timezone is a constant offset `off : Int` in minutes, the value
returned by `getTimezoneOffset()` (minutes to add to local time to
reach UTC; negative east of Greenwich). -/

/-- ECMAScript `LocalTime(t)` under a constant offset. -/
def localMs (off t : Int) : Int := t - off * 60000

/-- ECMAScript `Day(t)`. -/
def dayOf (t : Int) : Int := t / 86400000

/-- ECMAScript `TimeWithinDay(t)` (`%` on `Int` has a nonnegative
result for a positive modulus, as the spec's `modulo`). -/
def todOf (t : Int) : Int := t % 86400000

/-- ECMAScript `HourFromTime`. -/
def hourOf (t : Int) : Int := t % 86400000 / 3600000

/-- ECMAScript `MinFromTime`. -/
def minuteOf (t : Int) : Int := t % 3600000 / 60000

/-- ECMAScript `SecFromTime`. -/
def secondOf (t : Int) : Int := t % 60000 / 1000

/-- ECMAScript `msFromTime`. -/
def millisOf (t : Int) : Int := t % 1000

/-- `Date.prototype.getUTCFullYear`. -/
def getUTCFullYear (t : Int) : Int := yearFromDay (dayOf t)

/-- `Date.prototype.getUTCMonth` (0-based). -/
def getUTCMonth (t : Int) : Nat := monthFromDay (dayOf t)

/-- `Date.prototype.getUTCDate` (1-based day of month). -/
def getUTCDate (t : Int) : Nat := dateFromDay (dayOf t)

/-- `Date.prototype.getFullYear` (local). -/
def getFullYear (off t : Int) : Int := getUTCFullYear (localMs off t)

/-- `Date.prototype.getMonth` (local, 0-based). -/
def getMonth (off t : Int) : Nat := getUTCMonth (localMs off t)

/-- `Date.prototype.getDate` (local, 1-based). -/
def getDate (off t : Int) : Nat := getUTCDate (localMs off t)

/-- `Date.prototype.getHours` (local). -/
def getHours (off t : Int) : Int := hourOf (localMs off t)

/-- `Date.prototype.getMinutes` (local). -/
def getMinutes (off t : Int) : Int := minuteOf (localMs off t)

/-- `Date.prototype.getSeconds` (local). -/
def getSeconds (off t : Int) : Int := secondOf (localMs off t)

/-- `Date.prototype.getMilliseconds` (local). -/
def getMilliseconds (off t : Int) : Int := millisOf (localMs off t)

/-- ECMAScript `MakeDate`. -/
def makeDate (day msec : Int) : Int := day * 86400000 + msec

/-- ECMAScript `MakeTime`. -/
def makeTime (h m s ms : Int) : Int := h * 3600000 + m * 60000 + s * 1000 + ms

/-- `Date.prototype.setUTCFullYear(y)` (single-argument form: month and
day are kept). -/
def setUTCFullYearT (t y : Int) : Int :=
  makeDate (makeDay y (getUTCMonth t) (getUTCDate t)) (todOf t)

/-- `Date.prototype.setUTCMonth(m)` (day of month kept, overflowing
months normalised by `MakeDay`). -/
def setUTCMonthT (t m : Int) : Int :=
  makeDate (makeDay (getUTCFullYear t) m (getUTCDate t)) (todOf t)

/-- `Date.prototype.setUTCDate(dt)`. -/
def setUTCDateT (t dt : Int) : Int :=
  makeDate (makeDay (getUTCFullYear t) (getUTCMonth t) dt) (todOf t)

/-- `Date.prototype.setUTCHours(h)` (single-argument form). -/
def setUTCHoursT (t h : Int) : Int :=
  makeDate (dayOf t) (makeTime h (minuteOf t) (secondOf t) (millisOf t))

/-- `Date.prototype.setUTCMinutes(m)`. -/
def setUTCMinutesT (t m : Int) : Int :=
  makeDate (dayOf t) (makeTime (hourOf t) m (secondOf t) (millisOf t))

/-- `Date.prototype.setUTCSeconds(s)`. -/
def setUTCSecondsT (t s : Int) : Int :=
  makeDate (dayOf t) (makeTime (hourOf t) (minuteOf t) s (millisOf t))

/-- `Date.prototype.setUTCMilliseconds(ms)`. -/
def setUTCMillisecondsT (t ms : Int) : Int :=
  makeDate (dayOf t) (makeTime (hourOf t) (minuteOf t) (secondOf t) ms)

/-- A local setter under a constant offset: shift into local time,
apply the UTC transformation, shift back (`UTC(op(LocalTime(t)))`). -/
def asLocal (off : Int) (f : Int → Int → Int) (t v : Int) : Int :=
  f (localMs off t) v + off * 60000

/-- `Date.prototype.setFullYear(y)` (local). -/
def setFullYearT (off t y : Int) : Int := asLocal off setUTCFullYearT t y

/-- `Date.prototype.setMonth(m)` (local). -/
def setMonthT (off t m : Int) : Int := asLocal off setUTCMonthT t m

/-- `Date.prototype.setDate(dt)` (local). -/
def setDateT (off t dt : Int) : Int := asLocal off setUTCDateT t dt

/-- The epoch value of the civil triple `(y, m, d)` at midnight:
`MakeDay` times one day of milliseconds.  This is the raw assembly
step shared by the UTC field setters; `Date.UTC` itself first passes
the year through `MakeFullYear` (see `makeFullYear` and
`truncMidnight`). -/
def dateUTC (y m d : Int) : Int := makeDay y m d * 86400000

/-! ## `Date.prototype.toISOString` pieces

`format` only ever uses `toISOString().split('T')[0]` (the date part)
and `split('T')[1].replace('Z', '')` (the time part without the `Z`),
so the two parts are modelled separately. -/

/-- The year field of `toISOString`: four digits for years 0..9999,
otherwise the expanded sign + six digits form. -/
def isoYearChars (y : Int) : List Char :=
  if 0 ≤ y ∧ y ≤ 9999 then zeroPad 4 y.toNat
  else (if y < 0 then ['-'] else ['+']) ++ zeroPad 6 y.natAbs

/-- `date.toISOString().split('T')[0]`: `YYYY-MM-DD` from UTC fields. -/
def isoDateChars (t : Int) : List Char :=
  isoYearChars (getUTCFullYear t)
    ++ '-' :: zeroPad 2 (getUTCMonth t + 1)
    ++ '-' :: zeroPad 2 (getUTCDate t)

/-- `date.toISOString().split('T')[1].replace('Z', '')`:
`HH:MI:SS.FFF` from UTC fields. -/
def isoTimeChars (t : Int) : List Char :=
  zeroPad 2 (hourOf t).toNat
    ++ ':' :: zeroPad 2 (minuteOf t).toNat
    ++ ':' :: zeroPad 2 (secondOf t).toNat
    ++ '.' :: zeroPad 3 (millisOf t).toNat

/-! ## The core codec functions (`src/index.js`) -/

/-- `timezone(date)` (line 229): from `offset = getTimezoneOffset()`
and `off = |offset|`, produce
`(offset < 0 ? '+' : '-') + ('00'+⌊off/60⌋).slice(-2) + ':' + ('00'+off%60).slice(-2)`. -/
def timezone (off : Int) : List Char :=
  (if off < 0 then '+' else '-')
    :: (padSliceK 2 (off.natAbs / 60) ++ ':' :: padSliceK 2 (off.natAbs % 60))

/-- The error message `Interval ${kind} requires ...` fragments. -/
def kindName (isDayToSec : Bool) : List Char :=
  if isDayToSec then "day-to-second".toList else "year-to-month".toList

def msgStart (isDayToSec : Bool) : List Char :=
  "Interval ".toList ++ kindName isDayToSec ++ " requires a starting Date".toList

def msgEnding (isDayToSec : Bool) : List Char :=
  "Interval ".toList ++ kindName isDayToSec ++ " requires an ending Date".toList

def msgExtraction (isDayToSec : Bool) : List Char :=
  "Interval ".toList ++ kindName isDayToSec
    ++ " requires an extraction Date for the ".toList
    ++ (if isDayToSec then "time".toList else "month".toList)

/-- ECMAScript `MakeFullYear`, applied by `Date.UTC` to its year
argument: integer years 0 through 99 are mapped to `1900 + year`. -/
def makeFullYear (y : Int) : Int :=
  if 0 ≤ y ∧ y ≤ 99 then 1900 + y else y

/-- The truncation used by `interval` (lines 255-256):
`Date.UTC(d.getFullYear(), d.getMonth(), d.getDate())` — the Date's
calendar fields (local accessors) reassembled as a UTC midnight, with
`Date.UTC`'s `MakeFullYear` remapping of two-digit years. -/
def truncMidnight (off t : Int) : Int :=
  dateUTC (makeFullYear (getFullYear off t)) (getMonth off t) (getDate off t)

/-- `interval(isDayToSec, dates)` (lines 244-260), restricted to
arguments that are absent or valid `Date`s: `none` models an argument
that is absent or not a `Date` (the `instanceof Date` guard), `some t`
a valid `Date` with time value `t`.  A `Date` that exists but carries
a `NaN` time value is covered by `intervalJS` below, which extends
this function.  `Math.abs` and `Math.floor` on the nonnegative
quotient are `toNat`; `Math.max/min` are `max/min`. -/
def interval (isDayToSec : Bool) (d0 d1 d2 : Option Int) (off : Int) :
    Except (List Char) (List Char) :=
  match d0 with
  | none => .error (msgStart isDayToSec)
  | some t0 =>
    match d1 with
    | none => .error (msgEnding isDayToSec)
    | some t1 =>
      match d2 with
      | none => .error (msgExtraction isDayToSec)
      | some t2 =>
        let utc1 := truncMidnight off t0
        let utc2 := truncMidnight off t1
        let toPart := if isDayToSec then isoTimeChars t2
          else padSliceK 2 (getMonth off t2 + 1)
        let num := (max utc1 utc2 - min utc1 utc2)
          / (if isDayToSec then 86401000 else 31536000000)
        .ok ((if utc1 < utc2 then '-' else '+')
          :: (if isDayToSec then padSliceK 7 num.toNat else padSliceK 4 num.toNat)
          ++ (if isDayToSec then [' '] else ['-'])
          ++ toPart)

/-- A `Date`-typed argument as `interval` receives it: `absent` covers
an argument that is missing or not a `Date` at all (the `instanceof`
guard fires); `invalid` is a genuine `Date` whose time value is `NaN`
(e.g. `new Date(NaN)`), which passes the `instanceof` guard; `valid t`
is a `Date` holding the time value `t`. -/
inductive DateArg
  | absent
  | invalid
  | valid (t : Int)
deriving DecidableEq

/-- The time value of an interval argument past the guards: `none`
models `NaN`. -/
def argTime : DateArg → Option Int
  | .valid t => some t
  | _ => none

/-- `interval(isDayToSec, dates)` (lines 244-260) over arguments that
may also be invalid `Date`s.  An invalid `Date` passes the
`instanceof` guards of lines 245-253.  Its `getFullYear`/`getMonth`/
`getDate` return `NaN` and `Date.UTC(NaN, …)` is `NaN`, so `NaN`
propagates through `Math.max`/`Math.min`, the subtraction, the
division and `Math.floor` of line 258, while `utc1 < utc2` is `false`
on `NaN` (line 259 then emits `'+'`).  String concatenation renders
`NaN` as `"NaN"`, so `('0000000'+NaN).slice(-7)` is `"0000NaN"` and
`('0000'+NaN).slice(-4)` is `"0NaN"`; for year-to-month the extraction
month renders as `('00'+(NaN+1)).slice(-2) = "aN"` (line 257); for
day-to-second an invalid extraction `Date` makes `toISOString()` at
line 257 throw a `RangeError` (`Invalid time value`) rather than the
guards' `TypeError`. -/
def intervalJS (b : Bool) (d0 d1 d2 : DateArg) (off : Int) :
    Except (List Char) (List Char) :=
  if d0 = .absent then .error (msgStart b)
  else if d1 = .absent then .error (msgEnding b)
  else if d2 = .absent then .error (msgExtraction b)
  else
    let utc1 := (argTime d0).map (truncMidnight off)
    let utc2 := (argTime d1).map (truncMidnight off)
    match b, argTime d2 with
    | true, none => .error ("Invalid time value".toList)
    | _, _ =>
      let toPart := match argTime d2 with
        | some t2 => if b then isoTimeChars t2 else padSliceK 2 (getMonth off t2 + 1)
        | none => "aN".toList
      match utc1, utc2 with
      | some u1, some u2 =>
        let num := (max u1 u2 - min u1 u2) / (if b then 86401000 else 31536000000)
        .ok ((if u1 < u2 then '-' else '+')
          :: (if b then padSliceK 7 num.toNat else padSliceK 4 num.toNat)
          ++ (if b then [' '] else ['-'])
          ++ toPart)
      | _, _ =>
        .ok ('+' :: (if b then "0000NaN".toList else "0NaN".toList)
          ++ (if b then [' '] else ['-'])
          ++ toPart)

instance {ε α : Type} [DecidableEq ε] [DecidableEq α] : DecidableEq (Except ε α) := fun x y => by
  cases x <;> cases y
  case error.error a b =>
    exact if h : a = b then .isTrue (by rw [h]) else .isFalse (by simp [h])
  case error.ok a b => exact .isFalse (by simp)
  case ok.error a b => exact .isFalse (by simp)
  case ok.ok a b =>
    exact if h : a = b then .isTrue (by rw [h]) else .isFalse (by simp [h])

/-! ## `format` (lines 129-152) -/

/-- Whether `pat` occurs at the start of the second list. -/
def isStartSeq : List Char → List Char → Bool
  | [], _ => true
  | _ :: _, [] => false
  | p :: ps, c :: cs => p == c && isStartSeq ps cs

/-- `s.indexOf(pat) >= 0`: `pat` occurs somewhere in `s`. -/
def hasSeq (pat : List Char) : List Char → Bool
  | [] => pat.isEmpty
  | c :: cs => isStartSeq pat (c :: cs) || hasSeq pat cs

/-- ASCII upper-casing (`String.prototype.toUpperCase` restricted to
the ASCII pattern alphabet actually used). -/
def upChar (c : Char) : Char :=
  if 'a' ≤ c ∧ c ≤ 'z' then Char.ofNat (c.toNat - 32) else c

/-- The pattern constant `DATE = 'YYYY-MM-DD'`. -/
def datePat : List Char := "YYYY-MM-DD".toList

/-- The pattern constant `TIME = 'HH:MI:SS.FFF'`. -/
def timePat : List Char := "HH:MI:SS.FFF".toList

/-- The pattern constant `ZONE = '[+|-]TH:TM'`. -/
def zonePat : List Char := "[+|-]TH:TM".toList

/-- The pattern constant `YEAR_TO_MONTH = '[+|-]YEARS-MM'`. -/
def ytmPat : List Char := "[+|-]YEARS-MM".toList

/-- The pattern constant `DAY_TO_SEC = '[+|-]DAYS HH:MI:SS.FFF'`. -/
def dtsPat : List Char := "[+|-]DAYS HH:MI:SS.FFF".toList

/-- The local-field time string of `format` (lines 140-144):
`('00'+getHours()).slice(-2) + ':' + ... + '.' + ('000'+getMilliseconds()).slice(-3)`. -/
def localTimeChars (off t : Int) : List Char :=
  padSliceK 2 (getHours off t).toNat
    ++ ':' :: padSliceK 2 (getMinutes off t).toNat
    ++ ':' :: padSliceK 2 (getSeconds off t).toNat
    ++ '.' :: padSliceK 3 (getMilliseconds off t).toNat

/-- The `date` sub-string of `format` (line 139). -/
def formatDatePart (frmt : List Char) (t0 : Int) : List Char :=
  if hasSeq datePat frmt then isoDateChars t0 else []

/-- The `time` sub-string of `format` before the day-to-second clearing
(lines 140-145). -/
def formatTimePartRaw (frmt : List Char) (off t0 : Int) : List Char :=
  if hasSeq timePat frmt then
    (if hasSeq zonePat frmt then localTimeChars off t0 else isoTimeChars t0)
  else []

/-- The `zone` sub-string of `format` (line 146). -/
def formatZonePart (frmt : List Char) (off : Int) : List Char :=
  if hasSeq zonePat frmt then timezone off else []

/-- The final template of `format` (lines 150-151): the four pieces
joined by single spaces between nonempty neighbours. -/
def joinParts (d t z i : List Char) : List Char :=
  d ++ (if ¬d.isEmpty ∧ ¬t.isEmpty then [' '] else [])
    ++ t ++ (if (¬d.isEmpty ∨ ¬t.isEmpty) ∧ ¬z.isEmpty then [' '] else [])
    ++ z ++ (if (¬d.isEmpty ∨ ¬t.isEmpty ∨ ¬z.isEmpty) ∧ ¬i.isEmpty then [' '] else [])
    ++ i

/-- `format(format, ...dates)` (lines 129-152).  All supplied dates are
`Date`s in the model (the `instanceof` guard of lines 130-134 is a
typing precondition); an empty `dates` list would make `dates[0]`
undefined and `toISOString` throw, modelled as an error.  In the
day-to-second branch the `!(time = '')` assignment clears the time
piece. -/
def format (fmt : List Char) (dates : List Int) (off : Int) :
    Except (List Char) (List Char) :=
  match dates with
  | [] => .error "TypeError".toList
  | t0 :: _ =>
    let frmt := fmt.map upChar
    let d := formatDatePart frmt t0
    let ti := formatTimePartRaw frmt off t0
    let z := formatZonePart frmt off
    if hasSeq ytmPat frmt then
      Except.map (fun iv => joinParts d ti z iv)
        (interval false (dates.get? 0) (dates.get? 1) (dates.get? 2) off)
    else if hasSeq dtsPat frmt then
      Except.map (fun iv => joinParts d [] z iv)
        (interval true (dates.get? 0) (dates.get? 1) (dates.get? 2) off)
    else .ok (joinParts d ti z [])

/-! ## The regular expressions of `unformat` (lines 8-12)

Each regex is compiled to a deterministic matcher: `tryX` matches at
the start of the list (with the greedy-then-backtrack behaviour of
`\\d{1,k}` before a literal), and `findX` scans for the first match,
which is the semantics of `String.prototype.match` with an unanchored
pattern. -/

/-- Exactly `n` leading digit characters, and the remainder. -/
def chompDigits : Nat → List Char → Option (List Char × List Char)
  | 0, l => some ([], l)
  | _ + 1, [] => none
  | n + 1, c :: cs =>
    if isDig c then
      match chompDigits n cs with
      | some (ds, rest) => some (c :: ds, rest)
      | none => none
    else none

/-- Greedy `\\d{1,k}` followed by the literal `stop`: try the longest
digit run first, backtracking to shorter runs. -/
def grabUpTo (stop : Char) : Nat → List Char → Option (List Char × List Char)
  | 0, _ => none
  | n + 1, l =>
    match chompDigits (n + 1) l with
    | some (ds, c :: rest2) => if c == stop then some (ds, rest2) else grabUpTo stop n l
    | some (_, []) => grabUpTo stop n l
    | none => grabUpTo stop n l

/-- Greedy `\\d{1,k}` at the end of the pattern: the longest available
digit run up to `k`. -/
def grabEnd : Nat → List Char → Option (List Char × List Char)
  | 0, _ => none
  | n + 1, l =>
    match chompDigits (n + 1) l with
    | some p => some p
    | none => grabEnd n l

/-- `DATE_RX = /(\\d{4})-(\\d{1,2})-(\\d{1,2})/` at the start. -/
def tryDate (l : List Char) : Option (List Char × List Char × List Char) :=
  match chompDigits 4 l with
  | some (ys, c :: rest2) =>
    if c == '-' then
      match grabUpTo '-' 2 rest2 with
      | some (ms, rest3) =>
        match grabEnd 2 rest3 with
        | some (ds, _) => some (ys, ms, ds)
        | none => none
      | none => none
    else none
  | _ => none

/-- First match of `DATE_RX`. -/
def findDate : List Char → Option (List Char × List Char × List Char)
  | [] => none
  | c :: cs =>
    match tryDate (c :: cs) with
    | some g => some g
    | none => findDate cs

/-- `TIME_RX = /(\\d{2}):(\\d{2}):(\\d{2})\\.(\\d{3})/` at the start. -/
def tryTime (l : List Char) : Option (List Char × List Char × List Char × List Char) :=
  match l with
  | h1 :: h2 :: c1 :: m1 :: m2 :: c2 :: s1 :: s2 :: c3 :: f1 :: f2 :: f3 :: _ =>
    if isDig h1 && isDig h2 && c1 == ':' && isDig m1 && isDig m2 && c2 == ':'
        && isDig s1 && isDig s2 && c3 == '.' && isDig f1 && isDig f2 && isDig f3 then
      some ([h1, h2], [m1, m2], [s1, s2], [f1, f2, f3])
    else none
  | _ => none

/-- First match of `TIME_RX`. -/
def findTime : List Char → Option (List Char × List Char × List Char × List Char)
  | [] => none
  | c :: cs =>
    match tryTime (c :: cs) with
    | some g => some g
    | none => findTime cs

/-- `ZONE_RX = /([+-])(\\d{1,2}):(\\d{1,2})/` at the start. -/
def tryZone (l : List Char) : Option (Char × List Char × List Char) :=
  match l with
  | c :: rest =>
    if c == '+' || c == '-' then
      match grabUpTo ':' 2 rest with
      | some (th, rest2) =>
        match grabEnd 2 rest2 with
        | some (tm, _) => some (c, th, tm)
        | none => none
      | none => none
    else none
  | [] => none

/-- First match of `ZONE_RX`. -/
def findZone : List Char → Option (Char × List Char × List Char)
  | [] => none
  | c :: cs =>
    match tryZone (c :: cs) with
    | some g => some g
    | none => findZone cs

/-- `YEAR_TO_MONTH_RX = /([+-]\\d{1,4})-(\\d{1,2})/` at the start;
the first group includes the sign. -/
def tryYtm (l : List Char) : Option (List Char × List Char) :=
  match l with
  | c :: rest =>
    if c == '+' || c == '-' then
      match grabUpTo '-' 4 rest with
      | some (ys, rest2) =>
        match grabEnd 2 rest2 with
        | some (ms, _) => some (c :: ys, ms)
        | none => none
      | none => none
    else none
  | [] => none

/-- First match of `YEAR_TO_MONTH_RX`. -/
def findYtm : List Char → Option (List Char × List Char)
  | [] => none
  | c :: cs =>
    match tryYtm (c :: cs) with
    | some g => some g
    | none => findYtm cs

/-- `DAY_TO_SEC_RX = /([+-]\\d{1,7})/` at the start; the group includes
the sign. -/
def tryDts (l : List Char) : Option (List Char) :=
  match l with
  | c :: rest =>
    if c == '+' || c == '-' then
      match grabEnd 7 rest with
      | some (ds, _) => some (c :: ds)
      | none => none
    else none
  | [] => none

/-- First match of `DAY_TO_SEC_RX`. -/
def findDts : List Char → Option (List Char)
  | [] => none
  | c :: cs =>
    match tryDts (c :: cs) with
    | some g => some g
    | none => findDts cs

/-- JavaScript `parseInt` on a regex group that is a digit run with an
optional leading sign. -/
def parseIntSigned (l : List Char) : Int :=
  match l with
  | '+' :: cs => (digitsVal cs : Int)
  | '-' :: cs => -(digitsVal cs : Int)
  | cs => (digitsVal cs : Int)

/-! ## `unformat` (lines 163-221) -/

/-- Which of the five global regexes the caller passed in `rxs`. -/
structure RxSet where
  date : Bool
  time : Bool
  zone : Bool
  ytm : Bool
  dts : Bool

/-- The mutable locals of `unformat`: `date` (a `Date` or undefined),
`time` (a number or undefined) and the seven field variables. -/
structure PState where
  dateV : Option Int
  timeV : Option Int
  yyyy : Option Int
  mm : Option Int
  dd : Option Int
  hh : Option Int
  mi : Option Int
  ss : Option Int
  fff : Option Int

/-- `if (v !== undefined) time += v * scale` (lines 202-205). -/
def optAdd (t : Int) (v : Option Int) (scale : Int) : Int :=
  match v with
  | some x => t + x * scale
  | none => t

/-- `unformat(rxs, formatted, refDate)` (lines 163-221), with the
ambient clock `now` (each `new Date()`) and host offset `off`.
Returns the time value of the resulting `Date`. -/
def unformat (rxs : RxSet) (s : List Char) (refD : Option Int) (now : Int) (off : Int) : Int :=
  let dte := if rxs.date then findDate s else none
  let tms := if rxs.time then findTime s else none
  let zns := if rxs.zone then findZone s else none
  let ytm := if rxs.ytm then findYtm s else none
  let dts := if rxs.dts then findDts s else none
  let p0 : PState := ⟨none, none, none, none, none, none, none, none, none⟩
  let p1 := match ytm with
    | some (g1, g2) =>
      { p0 with dateV := some ((refD.getD now) + parseIntSigned g1 * 31556952000),
                mm := some ((digitsVal g2 : Int) - 1), dd := some 1,
                hh := some 0, mi := some 0, ss := some 0, fff := some 0 }
    | none => p0
  let p2 := match dts with
    | some g1 =>
      let tv := (refD.getD now) + parseIntSigned g1 * 86400000
      { p1 with timeV := some tv, dateV := some tv }
    | none => p1
  let p3 := match dte with
    | some (gy, gm, gd) =>
      { p2 with yyyy := some (digitsVal gy : Int), mm := some ((digitsVal gm : Int) - 1),
                dd := some (digitsVal gd : Int), hh := some 0, mi := some 0,
                ss := some 0, fff := some 0 }
    | none =>
      if tms.isSome ∧ p2.dateV = none then
        { p2 with yyyy := some 0, mm := some 0, dd := some 1 }
      else p2
  let p4 := match tms with
    | some (g1, g2, g3, g4) =>
      { p3 with hh := some (digitsVal g1 : Int), mi := some (digitsVal g2 : Int),
                ss := some (digitsVal g3 : Int), fff := some (digitsVal g4 : Int) }
    | none => p3
  match zns with
  | some (sc, gth, gtm) =>
    let t0 := p4.timeV.getD 0
    let t4 := optAdd (optAdd (optAdd (optAdd t0 p4.hh 3600000) p4.mi 60000) p4.ss 1000) p4.fff 1
    let offP := (if sc = '-' then (-1 : Int) else 1)
      * ((digitsVal gth : Int) * 3600000 + (digitsVal gtm : Int) * 60000)
    let t5 := if t4 ≠ 0 then t4 - offP else offP
    let d1 := match p4.yyyy with | some y => setFullYearT off t5 y | none => t5
    let d2 := match p4.mm with | some m => setMonthT off d1 m | none => d1
    let d3 := match p4.dd with | some dt => setDateT off d2 dt | none => d2
    d3
  | none =>
    let dv := p4.dateV.getD now
    let d1 := match p4.yyyy with | some y => setUTCFullYearT dv y | none => dv
    let d2 := match p4.mm with | some m => setUTCMonthT d1 m | none => d1
    let d3 := match p4.dd with | some dt => setUTCDateT d2 dt | none => d2
    let d4 := match p4.hh with | some h => setUTCHoursT d3 h | none => d3
    let d5 := match p4.mi with | some m => setUTCMinutesT d4 m | none => d4
    let d6 := match p4.ss with | some v => setUTCSecondsT d5 v | none => d5
    let d7 := match p4.fff with | some v => setUTCMillisecondsT d6 v | none => d6
    d7

/-! ## Supporting lemmas about the interval calculator -/

/-- The truncation of lines 255-256 keeps exactly the Date's calendar
day: it equals the UTC midnight of the local day number. -/
theorem truncMidnight_eq (off t : Int)
    (hy : ¬(0 ≤ getFullYear off t ∧ getFullYear off t ≤ 99)) :
    truncMidnight off t = localMs off t / 86400000 * 86400000 := by
  unfold truncMidnight makeFullYear dateUTC
  rw [if_neg hy]
  unfold getFullYear getMonth getDate getUTCFullYear getUTCMonth getUTCDate dayOf
  rw [makeDay_inv]

/-- Shape of a successful `interval` computation. -/
theorem interval_some (b : Bool) (t0 t1 t2 off : Int) :
    interval b (some t0) (some t1) (some t2) off
      = .ok ((if truncMidnight off t0 < truncMidnight off t1 then '-' else '+')
        :: (if b then
              padSliceK 7 (((max (truncMidnight off t0) (truncMidnight off t1)
                - min (truncMidnight off t0) (truncMidnight off t1)) / 86401000).toNat)
            else
              padSliceK 4 (((max (truncMidnight off t0) (truncMidnight off t1)
                - min (truncMidnight off t0) (truncMidnight off t1)) / 31536000000).toNat))
        ++ (if b then [' '] else ['-'])
        ++ (if b then isoTimeChars t2 else padSliceK 2 (getMonth off t2 + 1))) := by
  cases b <;> rfl

end MomentDB

namespace MomentDB

/-! ## The claims -/

/-- C1: the spec and the README state that the interval sign is `+`
exactly when the end lies at or after the start ("forward-pointing
intervals are positive"); the README's own example
`intervalYearToMonth(1900-01-01, now ≈ 2030, January)` documents the
output `+130-01`.  The code (line 259) does the opposite: for the
forward-pointing README input it emits `-`, so the code contradicts its
own documentation.  This theorem evaluates the code at that input: the
end is strictly after the start, yet the sign is `-` (and the years are
additionally zero-padded to `0130`). -/
theorem C1_sign_inverted_at_readme_example :
    interval false (some (dateUTC 1900 0 1)) (some (dateUTC 2030 0 1))
        (some (dateUTC 2030 0 1)) 0
      = .ok ("-0130-01".toList)
    ∧ dateUTC 1900 0 1 < dateUTC 2030 0 1 := by
  constructor
  · rfl
  · decide

/-- C9 counterexample: the code guards only `instanceof Date`, so a
genuine but invalid `Date` (`NaN` time value) — squarely "not a valid
instant" — passes all three guards: with an invalid start and valid
end and extraction, day-to-second interval formatting returns the
garbage string `+0000NaN 00:00:00.000` as a normal result, raising no
error at all. -/
theorem C9_invalid_date_counterexample :
    intervalJS true .invalid (.valid 0) (.valid 0) 0
      = .ok ("+0000NaN 00:00:00.000".toList)
    ∧ ∀ msg, intervalJS true .invalid (.valid 0) (.valid 0) 0 ≠ .error msg := by
  refine ⟨rfl, ?_⟩
  intro msg h
  rw [show intervalJS true .invalid (.valid 0) (.valid 0) 0
      = .ok ("+0000NaN 00:00:00.000".toList) from rfl] at h
  exact Except.noConfusion h

/-- C9 (amended): `interval` (lines 244-254) checks its three
arguments in order, raising an error naming the offending role
("starting"/"ending"/"extraction", and "time" vs "month" for the
extraction of the two kinds) — but only when the argument is absent or
not a `Date` at all.  The guard is `instanceof Date`, so an invalid
`Date` carrying `NaN` is not rejected: a `NaN` start or end propagates
into the output as the magnitude text `0000NaN` (day-to-second) or
`0NaN` (year-to-month) with sign `+`, returned as an ordinary result;
on valid `Date`s the computation is the plain `interval` one. -/
theorem C9_interval_argument_errors_amended (b : Bool) (d1 d2 : DateArg)
    (t0 t1 t2 off : Int) :
    intervalJS b .absent d1 d2 off = .error (msgStart b)
    ∧ intervalJS b (.valid t0) .absent d2 off = .error (msgEnding b)
    ∧ intervalJS b (.valid t0) (.valid t1) .absent off = .error (msgExtraction b)
    ∧ intervalJS b (.valid t0) (.valid t1) (.valid t2) off
        = interval b (some t0) (some t1) (some t2) off
    ∧ intervalJS b .invalid (.valid t1) (.valid t2) off
        = .ok ('+' :: (if b then "0000NaN".toList else "0NaN".toList)
            ++ (if b then [' '] else ['-'])
            ++ (if b then isoTimeChars t2 else padSliceK 2 (getMonth off t2 + 1)))
    ∧ hasSeq ("starting".toList) (msgStart b) = true
    ∧ hasSeq ("ending".toList) (msgEnding b) = true
    ∧ hasSeq ("extraction".toList) (msgExtraction b) = true
    ∧ hasSeq ("time".toList) (msgExtraction true) = true
    ∧ hasSeq ("month".toList) (msgExtraction false) = true := by
  refine ⟨rfl, rfl, rfl, ?_, ?_, ?_, ?_, ?_, by decide, by decide⟩
  all_goals cases b <;> first | rfl | decide

/-- C7: the timezone encoder emits the sign (`+` exactly when the
instant is ahead of UTC, i.e. `getTimezoneOffset() < 0`), then the
absolute offset's hours and minutes, each zero-padded to exactly two
digits, separated by a colon; the string always has length 6 (the
`slice(-2)` keeps the hour field at two digits for every offset, so it
can never exceed two digits, pathological or not). -/
theorem C7_timezone_encode (off : Int) (h : off.natAbs ≤ 840) :
    timezone off
      = (if off < 0 then '+' else '-')
        :: zeroPad 2 (off.natAbs / 60) ++ ':' :: zeroPad 2 (off.natAbs % 60)
    ∧ ((timezone off).head? = some '+' ↔ off < 0)
    ∧ (timezone off).length = 6 := by
  refine ⟨?_, ?_, ?_⟩
  · unfold timezone
    rw [padSliceK_eq_zeroPad 2 (off.natAbs / 60) (by omega),
      padSliceK_eq_zeroPad 2 (off.natAbs % 60) (by omega)]
    rfl
  · unfold timezone
    by_cases hlt : off < 0
    · rw [if_pos hlt]
      simpa using hlt
    · rw [if_neg hlt]
      simp only [List.head?_cons, Option.some.injEq]
      constructor
      · intro hc; cases hc
      · intro hc; exact absurd hc hlt
  · unfold timezone
    simp [length_padSliceK]

/-- C7 witness: at the README's offset UTC-7 (`getTimezoneOffset() =
420`) the encoder produces `-07:00`; at UTC+7 (`-420`) it produces
`+07:00`. -/
theorem C7_timezone_encode_witness :
    timezone 420 = "-07:00".toList ∧ timezone (-420) = "+07:00".toList := by
  have h1 := C7_timezone_encode 420 (by decide)
  have h2 := C7_timezone_encode (-420) (by decide)
  rw [h1.1, h2.1]
  decide

/-- Local day numbers of two instants on the same UTC calendar day
differ by at most one, whatever the (shared) host offset. -/
theorem local_day_close (off t0 t1 : Int) (h : dayOf t0 = dayOf t1) :
    localMs off t0 / 86400000 - localMs off t1 / 86400000 ≤ 1
    ∧ localMs off t1 / 86400000 - localMs off t0 / 86400000 ≤ 1 := by
  unfold dayOf at h
  unfold localMs
  omega

/-- The midnights of two instants on the same UTC day are at most one
day apart, so the interval magnitude divides to zero — provided both
local years escape `Date.UTC`'s two-digit-year remapping. -/
theorem same_day_num_zero (off t0 t1 : Int) (u : Int) (hu : 86401000 ≤ u)
    (h : dayOf t0 = dayOf t1)
    (hy0 : ¬(0 ≤ getFullYear off t0 ∧ getFullYear off t0 ≤ 99))
    (hy1 : ¬(0 ≤ getFullYear off t1 ∧ getFullYear off t1 ≤ 99)) :
    (max (truncMidnight off t0) (truncMidnight off t1)
      - min (truncMidnight off t0) (truncMidnight off t1)) / u = 0 := by
  have h0 := truncMidnight_eq off t0 hy0
  have h1 := truncMidnight_eq off t1 hy1
  have hc := local_day_close off t0 t1 h
  apply Int.ediv_eq_zero_of_lt
  · rcases le_total (truncMidnight off t0) (truncMidnight off t1) with hle | hle
    · rw [max_eq_right hle, min_eq_left hle]; omega
    · rw [max_eq_left hle, min_eq_right hle]; omega
  · rcases le_total (truncMidnight off t0) (truncMidnight off t1) with hle | hle
    · rw [max_eq_right hle, min_eq_left hle]; omega
    · rw [max_eq_left hle, min_eq_right hle]; omega

/-- Extracting the magnitude field (the characters after the sign) from
a formatted interval string. -/
theorem interval_field (c : Char) (mag sep rest : List Char) (k : Nat) (hk : mag.length = k) :
    ((c :: mag ++ sep ++ rest).drop 1).take k = mag := by
  subst hk
  rw [List.append_assoc, List.cons_append, List.drop_succ_cons, List.drop_zero, List.take_left]

/-- C3 counterexample: the claim fails because the truncation of lines
255-256 goes through `Date.UTC`, which remaps two-digit years.  With
host offset 60 (UTC-1), the instants 0100-01-01T00:30Z and
0100-01-01T12:00Z lie on the same UTC calendar day, but their local
days straddle the year 99/100 boundary: `Date.UTC(99, 11, 31)` means
1999-12-31 while `Date.UTC(100, 0, 1)` means 0100-01-01, so the
day-to-second magnitude field reads `0693950`, not `0000000`. -/
theorem C3_truncation_counterexample :
    dayOf (dateUTC 100 0 1 + 1800000) = dayOf (dateUTC 100 0 1 + 43200000)
    ∧ interval true (some (dateUTC 100 0 1 + 1800000))
        (some (dateUTC 100 0 1 + 43200000)) (some 0) 60
      = .ok ("+0693950 00:00:00.000".toList)
    ∧ ("0693950".toList) ≠ List.replicate 7 '0' := by
  refine ⟨by decide, rfl, by decide⟩

/-- C3 (amended): the interval computation truncates each endpoint to
the UTC midnight of its calendar day via
`Date.UTC(getFullYear(), getMonth(), getDate())`, and `Date.UTC`
remaps years 0-99 to 1900+year.  When both endpoints' local years
escape that window, the truncation is the local day number times one
day, and for two instants on the same UTC calendar day the magnitude
field of either interval kind is all zeros; local years 0-99 can break
this (see the counterexample). -/
theorem C3_truncation_same_day_zero_amended (b : Bool) (off t0 t1 t2 : Int)
    (h : dayOf t0 = dayOf t1)
    (hy0 : ¬(0 ≤ getFullYear off t0 ∧ getFullYear off t0 ≤ 99))
    (hy1 : ¬(0 ≤ getFullYear off t1 ∧ getFullYear off t1 ≤ 99)) :
    truncMidnight off t0 = localMs off t0 / 86400000 * 86400000
    ∧ ∃ s, interval b (some t0) (some t1) (some t2) off = .ok s
        ∧ (s.drop 1).take (if b then 7 else 4) = List.replicate (if b then 7 else 4) '0' := by
  refine ⟨truncMidnight_eq off t0 hy0, ?_⟩
  refine ⟨_, interval_some b t0 t1 t2 off, ?_⟩
  have h7 := same_day_num_zero off t0 t1 86401000 (by omega) h hy0 hy1
  have h4 := same_day_num_zero off t0 t1 31536000000 (by omega) h hy0 hy1
  cases b
  · simp only [if_neg (show ¬(false = true) by decide), h4, Int.toNat_zero]
    rw [interval_field _ _ _ _ 4 (length_padSliceK 4 0)]
    decide
  · simp only [eq_self_iff_true, if_true, h7, Int.toNat_zero]
    rw [interval_field _ _ _ _ 7 (length_padSliceK 7 0)]
    decide

/-- C3 witness: two instants within 2030-01-01 UTC, at different times
of day, under host offset UTC-7 (local years 2029-2030, outside the
remap window): the day-to-second magnitude field is `0000000`. -/
theorem C3_truncation_same_day_zero_amended_witness :
    dayOf (dateUTC 2030 0 1 + 3600000) = dayOf (dateUTC 2030 0 1 + 82800000)
    ∧ ∃ s, interval true (some (dateUTC 2030 0 1 + 3600000))
          (some (dateUTC 2030 0 1 + 82800000)) (some 0) 420 = .ok s
        ∧ (s.drop 1).take 7 = List.replicate 7 '0' := by
  have h := C3_truncation_same_day_zero_amended true 420 (dateUTC 2030 0 1 + 3600000)
    (dateUTC 2030 0 1 + 82800000) 0 (by decide) (by decide) (by decide)
  obtain ⟨-, s, hs, hmag⟩ := h
  exact ⟨by decide, s, hs, by simpa using hmag⟩

/-- C2 counterexample: with `start` the epoch midnight and `end`
exactly 86402 days later (both truncations are the instants
themselves), the formatted day-to-second magnitude field reads
`0086400`, while the claimed formula `⌊|Δ| / 86400001⌋` yields 86401.
The code divides by 86401000 (one day plus one second), not by the
claimed 86400001 (one day plus one millisecond). -/
theorem C2_magnitude_unit_counterexample :
    interval true (some 0) (some 7465132800000) (some 0) 0
      = .ok ("-0086400 00:00:00.000".toList)
    ∧ digitsVal ("0086400".toList)
        ≠ (|(7465132800000 : Int) - 0| / 86400001).toNat := by
  exact ⟨rfl, by decide⟩

/-- C2 (amended): the magnitude digits of the formatted interval equal
`⌊|midnight(end) - midnight(start)| / u⌋` computed in exact integer
millisecond arithmetic, where `u` is 86,401,000 ms (one day plus one
second) for DAY_TO_SECOND — not the claimed 86,400,001 — and
31,536,000,000 ms (365.0 days) for YEAR_TO_MONTH, provided the
quotient fits the fixed field width. -/
theorem C2_magnitude_unit (b : Bool) (t0 t1 t2 off : Int)
    (hq : |truncMidnight off t1 - truncMidnight off t0|
        / (if b then (86401000 : Int) else 31536000000) < 10 ^ (if b then 7 else 4)) :
    ∃ s, interval b (some t0) (some t1) (some t2) off = .ok s
      ∧ digitsVal ((s.drop 1).take (if b then 7 else 4))
          = (|truncMidnight off t1 - truncMidnight off t0|
             / (if b then (86401000 : Int) else 31536000000)).toNat := by
  refine ⟨_, interval_some b t0 t1 t2 off, ?_⟩
  have habs : max (truncMidnight off t0) (truncMidnight off t1)
      - min (truncMidnight off t0) (truncMidnight off t1)
      = |truncMidnight off t1 - truncMidnight off t0| :=
    max_sub_min_eq_abs _ _
  cases b
  · simp only [if_neg (show ¬(false = true) by decide)] at hq ⊢
    rw [habs, interval_field _ _ _ _ 4 (length_padSliceK 4 _), digitsVal_padSliceK]
    exact Nat.mod_eq_of_lt (by omega)
  · simp only [eq_self_iff_true, if_true] at hq ⊢
    rw [habs, interval_field _ _ _ _ 7 (length_padSliceK 7 _), digitsVal_padSliceK]
    exact Nat.mod_eq_of_lt (by omega)

/-- C2 witness: the README's day-to-second pair (2030-01-01 back to
1900-01-01): the magnitude field decodes to ⌊47482·86400000 /
86401000⌋ = 47481. -/
theorem C2_magnitude_unit_witness :
    ∃ s, interval true (some (dateUTC 2030 0 1)) (some (dateUTC 1900 0 1)) (some 0) 0 = .ok s
      ∧ digitsVal ((s.drop 1).take 7)
          = (|truncMidnight 0 (dateUTC 1900 0 1) - truncMidnight 0 (dateUTC 2030 0 1)|
             / (86401000 : Int)).toNat := by
  have h := C2_magnitude_unit true (dateUTC 2030 0 1) (dateUTC 1900 0 1) 0 0 (by decide)
  simpa using h

/-- C10: for every pair of `Date`s the magnitude field of the interval
string has a fixed width (7 characters for DAY_TO_SECOND, 4 for
YEAR_TO_MONTH), is all decimal digits, and its value is the computed
magnitude reduced modulo `10^7` (resp. `10^4`); oversized magnitudes
are silently truncated to their low-order digits, never rejected (the
result is always `ok`). -/
theorem C10_magnitude_fixed_width (b : Bool) (t0 t1 t2 off : Int) :
    ∃ s, interval b (some t0) (some t1) (some t2) off = .ok s
      ∧ ((s.drop 1).take (if b then 7 else 4)).length = (if b then 7 else 4)
      ∧ (∀ c ∈ (s.drop 1).take (if b then 7 else 4), isDig c = true)
      ∧ digitsVal ((s.drop 1).take (if b then 7 else 4))
          = (|truncMidnight off t1 - truncMidnight off t0|
             / (if b then (86401000 : Int) else 31536000000)).toNat
            % 10 ^ (if b then 7 else 4) := by
  refine ⟨_, interval_some b t0 t1 t2 off, ?_⟩
  have habs : max (truncMidnight off t0) (truncMidnight off t1)
      - min (truncMidnight off t0) (truncMidnight off t1)
      = |truncMidnight off t1 - truncMidnight off t0| :=
    max_sub_min_eq_abs _ _
  cases b
  · simp only [if_neg (show ¬(false = true) by decide)]
    rw [habs, interval_field _ _ _ _ 4 (length_padSliceK 4 _)]
    exact ⟨length_padSliceK _ _, digits_padSliceK _ _, digitsVal_padSliceK _ _⟩
  · simp only [eq_self_iff_true, if_true]
    rw [habs, interval_field _ _ _ _ 7 (length_padSliceK 7 _)]
    exact ⟨length_padSliceK _ _, digits_padSliceK _ _, digitsVal_padSliceK _ _⟩

/-! ## Supporting lemmas for the decode direction -/

theorem unformat_ytm (s : List Char) (refD : Option Int) (now off : Int)
    (g1 g2 : List Char) (hm : findYtm s = some (g1, g2)) :
    unformat ⟨false, false, false, true, false⟩ s refD now off
      = setUTCMillisecondsT (setUTCSecondsT (setUTCMinutesT (setUTCHoursT
          (setUTCDateT (setUTCMonthT ((refD.getD now) + parseIntSigned g1 * 31556952000)
            ((digitsVal g2 : Int) - 1)) 1) 0) 0) 0) 0 := by
  unfold unformat
  simp [hm]

theorem todOf_bounds (t : Int) : 0 ≤ todOf t ∧ todOf t < 86400000 := by
  unfold todOf; omega

theorem dayOf_makeDate (d x : Int) (h1 : 0 ≤ x) (h2 : x < 86400000) :
    dayOf (makeDate d x) = d ∧ todOf (makeDate d x) = x := by
  unfold dayOf makeDate todOf; omega

theorem zero_time_chain (t : Int) :
    setUTCMillisecondsT (setUTCSecondsT (setUTCMinutesT (setUTCHoursT t 0) 0) 0) 0
      = dayOf t * 86400000 := by
  unfold setUTCMillisecondsT setUTCSecondsT setUTCMinutesT setUTCHoursT
    makeDate makeTime dayOf hourOf minuteOf secondOf millisOf
  omega

theorem dateFromDay_bounds (d : Int) :
    1 ≤ dateFromDay d ∧ dateFromDay d ≤ monthLen (leapN (yearFromDay d)) (monthFromDay d) := by
  have h := monthFromDay_spec d
  unfold dateFromDay monthLen
  omega

theorem monthLen_bounds : ∀ L < 2, ∀ m < 12, 28 ≤ monthLen L m ∧ monthLen L m ≤ 31 := by
  decide

theorem makeDay_roll (y : Int) (m : Nat) (hm : m ≤ 10) (dt : Int) :
    makeDay y m dt = makeDay y (m + 1) (dt - monthLen (leapN y) m) := by
  unfold makeDay
  have hL := leapN_le y
  have hfacts := (monthStart_facts (leapN y) (by omega) m (by omega)).1
  have h1 : (m : Int) / 12 = 0 := by omega
  have h2 : ((m : Int) % 12).toNat = m := by omega
  have h3 : ((m : Int) + 1) / 12 = 0 := by omega
  have h4 : (((m : Int) + 1) % 12).toNat = m + 1 := by omega
  rw [h1, h2, h3, h4]
  simp only [add_zero]
  unfold monthLen
  omega

/-- C5 (amended): decoding a year-to-month string shifts the reference
instant forward by `years` times 31,556,952,000 ms (a Gregorian
365.2425-day year, constant 3.1556952e+10 — not a 365-day-equivalent),
then sets the UTC month to the parsed month minus one through the
day-preserving month setter — which rolls over into the following
month when the shifted reference's day-of-month exceeds the target
month's length — then forces the day to 1 and zeroes the time fields;
so the result is the first of the parsed month of the shifted year,
or of the following month in the rollover case. -/
theorem C5_ytm_decode_amended (s : List Char) (refD : Option Int) (now off : Int)
    (g1 g2 : List Char) (hm : findYtm s = some (g1, g2))
    (hM1 : 1 ≤ digitsVal g2) (hM2 : digitsVal g2 ≤ 12) :
    unformat ⟨false, false, false, true, false⟩ s refD now off
      = (if ((getUTCDate ((refD.getD now) + parseIntSigned g1 * 31556952000)) : Int)
            ≤ (monthLen (leapN (getUTCFullYear ((refD.getD now) + parseIntSigned g1 * 31556952000)))
               (digitsVal g2 - 1) : Nat)
         then dateUTC (getUTCFullYear ((refD.getD now) + parseIntSigned g1 * 31556952000))
           ((digitsVal g2 : Int) - 1) 1
         else dateUTC (getUTCFullYear ((refD.getD now) + parseIntSigned g1 * 31556952000))
           (digitsVal g2) 1) := by
  rw [unformat_ytm s refD now off g1 g2 hm]
  set t := (refD.getD now) + parseIntSigned g1 * 31556952000 with ht
  set Mn := digitsVal g2 with hMn
  set y := getUTCFullYear t with hy
  set d0 := getUTCDate t with hd0
  have hm0le : getUTCMonth t ≤ 11 := (monthFromDay_spec (dayOf t)).1
  have hd0b : 1 ≤ d0 ∧ (d0 : Nat) ≤ monthLen (leapN y) (getUTCMonth t) := by
    have := dateFromDay_bounds (dayOf t)
    exact this
  have hLy := leapN_le y
  have hlen31 : monthLen (leapN y) (getUTCMonth t) ≤ 31 :=
    (monthLen_bounds (leapN y) (by omega) (getUTCMonth t) (by omega)).2
  have htod := todOf_bounds t
  have hMc : (Mn : Int) - 1 = ((Mn - 1 : Nat) : Int) := by omega
  -- the month setter
  have hmonth : setUTCMonthT t ((Mn : Int) - 1)
      = makeDate (makeDay y ((Mn - 1 : Nat) : Int) (d0 : Int)) (todOf t) := by
    unfold setUTCMonthT
    rw [hMc]
  rw [hmonth]
  by_cases hov : (d0 : Int) ≤ (monthLen (leapN y) (Mn - 1) : Nat)
  · -- no rollover: the parsed month survives
    rw [if_pos hov]
    have hf := makeDay_fields y (Mn - 1) (d0 : Int) (by omega) (by exact_mod_cast hd0b.1)
      (by exact_mod_cast hov)
    have hdm := dayOf_makeDate (makeDay y ((Mn - 1 : Nat) : Int) (d0 : Int)) (todOf t)
      htod.1 htod.2
    have hdate : setUTCDateT (makeDate (makeDay y ((Mn - 1 : Nat) : Int) (d0 : Int)) (todOf t)) 1
        = makeDate (makeDay y ((Mn - 1 : Nat) : Int) 1) (todOf t) := by
      unfold setUTCDateT getUTCFullYear getUTCMonth
      rw [hdm.1, hdm.2, hf.1, hf.2.1]
    rw [hdate, zero_time_chain]
    have hdm2 := dayOf_makeDate (makeDay y ((Mn - 1 : Nat) : Int) 1) (todOf t) htod.1 htod.2
    rw [hdm2.1]
    unfold dateUTC
    rw [hMc]
  · -- rollover into the following month, then the day is forced to 1
    rw [if_neg hov]
    have hno11 : Mn - 1 ≤ 10 := by
      by_contra hgt
      have h11 : Mn - 1 = 11 := by omega
      have : monthLen (leapN y) 11 = 31 := by
        have := leapN_le y
        interval_cases h : leapN y <;> decide
      rw [h11, this] at hov
      have : (d0 : Int) ≤ 31 := by omega
      exact hov (by omega)
    rw [makeDay_roll y (Mn - 1) hno11 (d0 : Int),
      show ((Mn - 1 : Nat) : Int) + 1 = ((Mn - 1 + 1 : Nat) : Int) from by omega]
    have hlen28 : 28 ≤ monthLen (leapN y) (Mn - 1) :=
      (monthLen_bounds (leapN y) (by omega) (Mn - 1) (by omega)).1
    have hlen28b : 28 ≤ monthLen (leapN y) (Mn - 1 + 1) :=
      (monthLen_bounds (leapN y) (by omega) (Mn - 1 + 1) (by omega)).1
    have hd31 : (d0 : Int) ≤ 31 := by
      have := hd0b.2
      omega
    have hf := makeDay_fields y (Mn - 1 + 1) ((d0 : Int) - (monthLen (leapN y) (Mn - 1) : Nat))
      (by omega) (by omega) (by omega)
    have hdm := dayOf_makeDate
      (makeDay y ((Mn - 1 + 1 : Nat) : Int) ((d0 : Int) - (monthLen (leapN y) (Mn - 1) : Nat)))
      (todOf t) htod.1 htod.2
    have hdate : setUTCDateT (makeDate
          (makeDay y ((Mn - 1 + 1 : Nat) : Int) ((d0 : Int) - (monthLen (leapN y) (Mn - 1) : Nat)))
          (todOf t)) 1
        = makeDate (makeDay y ((Mn - 1 + 1 : Nat) : Int) 1) (todOf t) := by
      unfold setUTCDateT getUTCFullYear getUTCMonth
      rw [hdm.1, hdm.2, hf.1, hf.2.1]
    rw [hdate, zero_time_chain]
    have hdm2 := dayOf_makeDate (makeDay y ((Mn - 1 + 1 : Nat) : Int) 1) (todOf t) htod.1 htod.2
    rw [hdm2.1]
    unfold dateUTC
    rw [show ((Mn - 1 + 1 : Nat) : Int) = (Mn : Int) from by omega]


/-- C5 counterexample: decoding `+5-01` against the reference instant
2030-01-01T00:00:00Z yields 2035-01-01 (the shift uses 31,556,952,000
ms = 365.2425 days per year, constant 3.1556952e+10 at line 173, which
lands on 2035-01-01T05:06Z before the setters), whereas the claim's
365-day-equivalent shift with the month field then overwritten by 1
and the day by 1 predicts 2034-01-01. -/
theorem C5_ytm_decode_counterexample :
    unformat ⟨false, false, false, true, false⟩ ("+5-01".toList)
        (some (dateUTC 2030 0 1)) 0 0
      = dateUTC 2035 0 1
    ∧ dateUTC 2035 0 1
        ≠ dateUTC (getUTCFullYear (dateUTC 2030 0 1 + 5 * 31536000000)) 0 1 := by
  constructor
  · rfl
  · decide

/-- C5 witness: the README's example `+130-02` with reference
2030-01-01T00:00:00Z decodes to 2160-02-01T00:00:00Z. -/
theorem C5_ytm_decode_amended_witness :
    unformat ⟨false, false, false, true, false⟩ ("+130-02".toList)
        (some (dateUTC 2030 0 1)) 0 0 = dateUTC 2160 1 1 := by
  have h := C5_ytm_decode_amended ("+130-02".toList) (some (dateUTC 2030 0 1)) 0 0
    ("+130".toList) ("02".toList) (by decide) (by decide) (by decide)
  rw [h]
  decide

/-! ## Supporting lemmas for the zone branch of `unformat` -/

theorem localMs_asLocal (off t v : Int) (f : Int → Int → Int) :
    localMs off (asLocal off f t v) = f (localMs off t) v := by
  simp only [asLocal, localMs]; ring

theorem todOf_setUTCFullYearT (t y : Int) : todOf (setUTCFullYearT t y) = todOf t := by
  unfold setUTCFullYearT makeDate todOf; omega

theorem todOf_setUTCMonthT (t m : Int) : todOf (setUTCMonthT t m) = todOf t := by
  unfold setUTCMonthT makeDate todOf; omega

theorem todOf_setUTCDateT (t d : Int) : todOf (setUTCDateT t d) = todOf t := by
  unfold setUTCDateT makeDate todOf; omega

theorem unformat_zoned_time (s : List Char) (refD : Option Int) (now off : Int)
    (sc : Char) (gth gtm g1 g2 g3 g4 : List Char)
    (hzm : findZone s = some (sc, gth, gtm))
    (htm : findTime s = some (g1, g2, g3, g4)) :
    unformat ⟨false, true, true, false, false⟩ s refD now off
      = setDateT off (setMonthT off (setFullYearT off
          (if (0 + (digitsVal g1 : Int) * 3600000 + (digitsVal g2 : Int) * 60000
              + (digitsVal g3 : Int) * 1000 + (digitsVal g4 : Int) * 1) ≠ 0
           then (0 + (digitsVal g1 : Int) * 3600000 + (digitsVal g2 : Int) * 60000
              + (digitsVal g3 : Int) * 1000 + (digitsVal g4 : Int) * 1)
             - (if sc = '-' then (-1 : Int) else 1)
               * ((digitsVal gth : Int) * 3600000 + (digitsVal gtm : Int) * 60000)
           else (if sc = '-' then (-1 : Int) else 1)
               * ((digitsVal gth : Int) * 3600000 + (digitsVal gtm : Int) * 60000)) 0) 0) 1 := by
  unfold unformat
  simp [hzm, htm, optAdd]

/-- C6 (amended): when a ZONE component is present the accumulated
hour/minute/second/millisecond fields are collapsed into a single
millisecond value and the sign-aware offset is subtracted (with the
quirk that when the accumulated value is exactly zero the offset is
used with inverted sign instead), and that value is applied as an
absolute epoch-milliseconds assignment, not via UTC field setters;
however, the parsed or defaulted year/month/day fields are afterwards
applied through LOCAL field setters, so the final epoch milliseconds
differ from "accumulated minus offset" in general — what is preserved
is the local time of day of the assigned absolute instant. -/
theorem C6_zone_absolute_amended (s : List Char) (refD : Option Int) (now off : Int)
    (sc : Char) (gth gtm g1 g2 g3 g4 : List Char)
    (hzm : findZone s = some (sc, gth, gtm))
    (htm : findTime s = some (g1, g2, g3, g4)) :
    ∃ t5 : Int,
      t5 = (if (digitsVal g1 : Int) * 3600000 + (digitsVal g2 : Int) * 60000
              + (digitsVal g3 : Int) * 1000 + (digitsVal g4 : Int) ≠ 0
            then (digitsVal g1 : Int) * 3600000 + (digitsVal g2 : Int) * 60000
              + (digitsVal g3 : Int) * 1000 + (digitsVal g4 : Int)
              - (if sc = '-' then (-1 : Int) else 1)
                * ((digitsVal gth : Int) * 3600000 + (digitsVal gtm : Int) * 60000)
            else (if sc = '-' then (-1 : Int) else 1)
                * ((digitsVal gth : Int) * 3600000 + (digitsVal gtm : Int) * 60000))
      ∧ unformat ⟨false, true, true, false, false⟩ s refD now off
          = setDateT off (setMonthT off (setFullYearT off t5 0) 0) 1
      ∧ todOf (localMs off (unformat ⟨false, true, true, false, false⟩ s refD now off))
          = todOf (localMs off t5) := by
  have h1 : unformat ⟨false, true, true, false, false⟩ s refD now off
      = setDateT off (setMonthT off (setFullYearT off
          (if (digitsVal g1 : Int) * 3600000 + (digitsVal g2 : Int) * 60000
              + (digitsVal g3 : Int) * 1000 + (digitsVal g4 : Int) ≠ 0
            then (digitsVal g1 : Int) * 3600000 + (digitsVal g2 : Int) * 60000
              + (digitsVal g3 : Int) * 1000 + (digitsVal g4 : Int)
              - (if sc = '-' then (-1 : Int) else 1)
                * ((digitsVal gth : Int) * 3600000 + (digitsVal gtm : Int) * 60000)
            else (if sc = '-' then (-1 : Int) else 1)
                * ((digitsVal gth : Int) * 3600000 + (digitsVal gtm : Int) * 60000)) 0) 0) 1 := by
    unfold unformat
    simp [hzm, htm, optAdd]
  refine ⟨_, rfl, h1, ?_⟩
  rw [h1]
  unfold setDateT setMonthT setFullYearT
  rw [localMs_asLocal, todOf_setUTCDateT, localMs_asLocal, todOf_setUTCMonthT,
    localMs_asLocal, todOf_setUTCFullYearT]


/-- C6 counterexample: decoding the zoned time `12:01:20.903 -07:00`
(host offset 420, UTC-7) does not produce the claimed epoch value
"accumulated milliseconds minus offset" = 43280903 - (-25200000) =
68480903; the subsequent local date setters move the instant to the
sentinel date 0000-01-01 (local). -/
theorem C6_zone_absolute_counterexample :
    unformat ⟨false, true, true, false, false⟩ ("12:01:20.903 -07:00".toList) none 0 420
      = dateUTC 0 0 1 + 68480903
    ∧ dateUTC 0 0 1 + 68480903 ≠ 43280903 - (-25200000 : Int) := by
  constructor
  · rfl
  · decide

/-- C6 witness: for the same zoned time text the amended statement
instantiates with `t5 = 68480903`, and the decoded instant's local
time of day equals `t5`'s local time of day. -/
theorem C6_zone_absolute_amended_witness :
    todOf (localMs 420 (unformat ⟨false, true, true, false, false⟩
        ("12:01:20.903 -07:00".toList) none 0 420))
      = todOf (localMs 420 68480903) := by
  obtain ⟨t5, ht5, h1, h2⟩ := C6_zone_absolute_amended
    ("12:01:20.903 -07:00".toList) none 0 420 '-'
    ("07".toList) ("00".toList) ("12".toList) ("01".toList) ("20".toList) ("903".toList)
    (by decide) (by decide)
  rw [h2, ht5]
  decide

/- Formatting kinds: the seven pattern shapes the library's public
   methods pass to `format` (date, time with/without zone, timestamp
   with/without zone, and the two interval patterns). -/
inductive PKind
  | date
  | timeNZ
  | timeZ
  | tsNZ
  | tsZ
  | ytm
  | dts
deriving DecidableEq

def patOf : PKind → List Char
  | .date => datePat
  | .timeNZ => timePat
  | .timeZ => timePat ++ ' ' :: zonePat
  | .tsNZ => datePat ++ ' ' :: timePat
  | .tsZ => datePat ++ ' ' :: timePat ++ ' ' :: zonePat
  | .ytm => ytmPat
  | .dts => dtsPat

theorem localTimeChars_ne_nil (off t : Int) : localTimeChars off t ≠ [] := by
  intro hc
  have h := congrArg List.length hc
  unfold localTimeChars at h
  simp [length_padSliceK] at h

theorem isoTimeChars_ne_nil (t : Int) : isoTimeChars t ≠ [] := by
  intro hc
  have h := congrArg List.length hc
  unfold isoTimeChars at h
  simp [length_zeroPad] at h

theorem hourOf_bounds (t : Int) : 0 ≤ hourOf t ∧ hourOf t < 24 := by
  unfold hourOf; omega

theorem minuteOf_bounds (t : Int) : 0 ≤ minuteOf t ∧ minuteOf t < 60 := by
  unfold minuteOf; omega

theorem secondOf_bounds (t : Int) : 0 ≤ secondOf t ∧ secondOf t < 60 := by
  unfold secondOf; omega

theorem millisOf_bounds (t : Int) : 0 ≤ millisOf t ∧ millisOf t < 1000 := by
  unfold millisOf; omega

theorem localTimeChars_canonical (off t : Int) :
    localTimeChars off t
      = zeroPad 2 (getHours off t).toNat ++ ':' :: zeroPad 2 (getMinutes off t).toNat
        ++ ':' :: zeroPad 2 (getSeconds off t).toNat
        ++ '.' :: zeroPad 3 (getMilliseconds off t).toNat := by
  unfold localTimeChars
  rw [padSliceK_eq_zeroPad 2 (getHours off t).toNat
      (by have := hourOf_bounds (localMs off t); unfold getHours; omega),
    padSliceK_eq_zeroPad 2 (getMinutes off t).toNat
      (by have := minuteOf_bounds (localMs off t); unfold getMinutes; omega),
    padSliceK_eq_zeroPad 2 (getSeconds off t).toNat
      (by have := secondOf_bounds (localMs off t); unfold getSeconds; omega),
    padSliceK_eq_zeroPad 3 (getMilliseconds off t).toNat
      (by have := millisOf_bounds (localMs off t); unfold getMilliseconds; omega)]

def timeComponent (k : PKind) (off t0 : Int) : List Char :=
  if hasSeq ytmPat ((patOf k).map upChar) = false ∧ hasSeq dtsPat ((patOf k).map upChar) = true
  then [] else formatTimePartRaw ((patOf k).map upChar) off t0


/-- C8: For every pattern kind the library formats, the emitted string is
the date part, the time component and the zone part joined in order (for
interval kinds, followed by the interval text); the time component is
nonempty exactly when the pattern contains a TIME section and the kind is
not the day-to-second interval; with a ZONE section the time component is
built from the local (offset-shifted) field accessors, without one from
the UTC accessors; and the local time component is canonically padded:
two digits for hours, minutes and seconds and three for milliseconds. -/
theorem C8_time_component (k : PKind) (t0 : Int) (rest : List Int) (off : Int) :
    (timeComponent k off t0 ≠ []
      ↔ (hasSeq timePat ((patOf k).map upChar) = true ∧ k ≠ PKind.dts))
    ∧ (k ≠ PKind.ytm → k ≠ PKind.dts →
        format (patOf k) (t0 :: rest) off
          = .ok (joinParts (formatDatePart ((patOf k).map upChar) t0)
              (timeComponent k off t0) (formatZonePart ((patOf k).map upChar) off) []))
    ∧ (k = PKind.dts → ∀ d1 d2 : Int,
        format (patOf k) (t0 :: d1 :: d2 :: rest) off
          = Except.map (fun iv => joinParts (formatDatePart ((patOf k).map upChar) t0)
              (timeComponent k off t0) (formatZonePart ((patOf k).map upChar) off) iv)
              (interval true (some t0) (some d1) (some d2) off))
    ∧ (hasSeq zonePat ((patOf k).map upChar) = true →
        timeComponent k off t0 = localTimeChars off t0)
    ∧ (hasSeq zonePat ((patOf k).map upChar) = false → timeComponent k off t0 ≠ [] →
        timeComponent k off t0 = isoTimeChars t0)
    ∧ localTimeChars off t0
        = zeroPad 2 (getHours off t0).toNat ++ ':' :: zeroPad 2 (getMinutes off t0).toNat
          ++ ':' :: zeroPad 2 (getSeconds off t0).toNat
          ++ '.' :: zeroPad 3 (getMilliseconds off t0).toNat := by
  cases k
  case date =>
    have htc : timeComponent PKind.date off t0 = [] := by
      unfold timeComponent formatTimePartRaw
      rw [if_neg (by decide), if_neg (by decide)]
    refine ⟨?_, ?_, ?_, ?_, ?_, localTimeChars_canonical off t0⟩
    · rw [htc]
      constructor
      · intro h; exact absurd rfl h
      · rintro ⟨h1, -⟩; exact absurd h1 (by decide)
    · intro _ _
      unfold format
      simp only []
      rw [if_neg (by decide), if_neg (by decide)]
      rfl
    · intro hk; exact absurd hk (by decide)
    · intro h1; exact absurd h1 (by decide)
    · intro _ h2; exact absurd htc h2
  case timeNZ =>
    have htc : timeComponent PKind.timeNZ off t0 = isoTimeChars t0 := by
      unfold timeComponent formatTimePartRaw
      rw [if_neg (by decide), if_pos (by decide), if_neg (by decide)]
    refine ⟨?_, ?_, ?_, ?_, ?_, localTimeChars_canonical off t0⟩
    · rw [htc]
      constructor
      · intro _; exact ⟨by decide, by decide⟩
      · intro _; exact isoTimeChars_ne_nil t0
    · intro _ _
      unfold format
      simp only []
      rw [if_neg (by decide), if_neg (by decide)]
      rfl
    · intro hk; exact absurd hk (by decide)
    · intro h1; exact absurd h1 (by decide)
    · intro _ _; exact htc
  case timeZ =>
    have htc : timeComponent PKind.timeZ off t0 = localTimeChars off t0 := by
      unfold timeComponent formatTimePartRaw
      rw [if_neg (by decide), if_pos (by decide), if_pos (by decide)]
    refine ⟨?_, ?_, ?_, ?_, ?_, localTimeChars_canonical off t0⟩
    · rw [htc]
      constructor
      · intro _; exact ⟨by decide, by decide⟩
      · intro _; exact localTimeChars_ne_nil off t0
    · intro _ _
      unfold format
      simp only []
      rw [if_neg (by decide), if_neg (by decide)]
      rfl
    · intro hk; exact absurd hk (by decide)
    · intro _; exact htc
    · intro h1; exact absurd h1 (by decide)
  case tsNZ =>
    have htc : timeComponent PKind.tsNZ off t0 = isoTimeChars t0 := by
      unfold timeComponent formatTimePartRaw
      rw [if_neg (by decide), if_pos (by decide), if_neg (by decide)]
    refine ⟨?_, ?_, ?_, ?_, ?_, localTimeChars_canonical off t0⟩
    · rw [htc]
      constructor
      · intro _; exact ⟨by decide, by decide⟩
      · intro _; exact isoTimeChars_ne_nil t0
    · intro _ _
      unfold format
      simp only []
      rw [if_neg (by decide), if_neg (by decide)]
      rfl
    · intro hk; exact absurd hk (by decide)
    · intro h1; exact absurd h1 (by decide)
    · intro _ _; exact htc
  case tsZ =>
    have htc : timeComponent PKind.tsZ off t0 = localTimeChars off t0 := by
      unfold timeComponent formatTimePartRaw
      rw [if_neg (by decide), if_pos (by decide), if_pos (by decide)]
    refine ⟨?_, ?_, ?_, ?_, ?_, localTimeChars_canonical off t0⟩
    · rw [htc]
      constructor
      · intro _; exact ⟨by decide, by decide⟩
      · intro _; exact localTimeChars_ne_nil off t0
    · intro _ _
      unfold format
      simp only []
      rw [if_neg (by decide), if_neg (by decide)]
      rfl
    · intro hk; exact absurd hk (by decide)
    · intro _; exact htc
    · intro h1; exact absurd h1 (by decide)
  case ytm =>
    have htc : timeComponent PKind.ytm off t0 = [] := by
      unfold timeComponent formatTimePartRaw
      rw [if_neg (by decide), if_neg (by decide)]
    refine ⟨?_, ?_, ?_, ?_, ?_, localTimeChars_canonical off t0⟩
    · rw [htc]
      constructor
      · intro h; exact absurd rfl h
      · rintro ⟨h1, -⟩; exact absurd h1 (by decide)
    · intro h _; exact absurd rfl h
    · intro hk; exact absurd hk (by decide)
    · intro h1; exact absurd h1 (by decide)
    · intro _ h2; exact absurd htc h2
  case dts =>
    have htc : timeComponent PKind.dts off t0 = [] := by
      unfold timeComponent formatTimePartRaw
      rw [if_pos (by decide)]
    refine ⟨?_, ?_, ?_, ?_, ?_, localTimeChars_canonical off t0⟩
    · rw [htc]
      constructor
      · intro h; exact absurd rfl h
      · rintro ⟨-, h2⟩; exact absurd rfl h2
    · intro _ h; exact absurd rfl h
    · intro _ d1 d2
      unfold format
      simp only []
      rw [if_neg (by decide), if_pos (by decide), htc]
      rfl
    · intro h1; exact absurd h1 (by decide)
    · intro _ h2; exact absurd htc h2

/-- C8 witness: at `off = 420`, `t0 = 68480903` the zoned-timestamp time
component equals the local-accessor rendering, and the unzoned time
pattern formats to the joined parts. -/
theorem C8_time_component_witness :
    timeComponent PKind.tsZ 420 68480903 = localTimeChars 420 68480903
    ∧ format (patOf PKind.timeNZ) (68480903 :: []) 420
        = .ok (joinParts (formatDatePart ((patOf PKind.timeNZ).map upChar) 68480903)
            (timeComponent PKind.timeNZ 420 68480903)
            (formatZonePart ((patOf PKind.timeNZ).map upChar) 420) []) :=
  ⟨(C8_time_component PKind.tsZ 68480903 [] 420).2.2.2.1 (by decide),
   (C8_time_component PKind.timeNZ 68480903 [] 420).2.1 (by decide) (by decide)⟩

/-! ## Symbolic evaluation of the matchers on encoded strings

These lemmas evaluate `findDate`/`findTime`/`findZone` on the exact
strings `format` emits, with the digit characters kept symbolic. -/

theorem chompDigits_exact (ds rest : List Char) (hdig : ∀ c ∈ ds, isDig c = true) :
    chompDigits ds.length (ds ++ rest) = some (ds, rest) := by
  induction ds with
  | nil => rfl
  | cons c cs ih =>
    have hc : isDig c = true := hdig c (List.mem_cons_self c cs)
    have ih' := ih (fun x hx => hdig x (List.mem_cons_of_mem c hx))
    show chompDigits (cs.length + 1) (c :: (cs ++ rest)) = _
    unfold chompDigits
    rw [if_pos hc, ih']

theorem grabUpTo_zero (stop : Char) (l : List Char) : grabUpTo stop 0 l = none := rfl

theorem grabUpTo_step (stop : Char) (n : Nat) (l ds : List Char) (c : Char) (rest2 : List Char)
    (h : chompDigits (n + 1) l = some (ds, c :: rest2)) :
    grabUpTo stop (n + 1) l = if c == stop then some (ds, rest2) else grabUpTo stop n l := by
  conv_lhs => rw [grabUpTo]
  rw [h]

theorem grabUpTo_hit (stop : Char) (n : Nat) (ds rest : List Char)
    (hdig : ∀ c ∈ ds, isDig c = true) (hlen : ds.length = n + 1) :
    grabUpTo stop (n + 1) (ds ++ stop :: rest) = some (ds, rest) := by
  have h : chompDigits (n + 1) (ds ++ stop :: rest) = some (ds, stop :: rest) := by
    rw [← hlen]; exact chompDigits_exact ds (stop :: rest) hdig
  rw [grabUpTo_step stop n _ ds stop rest h]
  simp

theorem grabEnd_hit (n : Nat) (ds rest : List Char)
    (hdig : ∀ c ∈ ds, isDig c = true) (hlen : ds.length = n + 1) :
    grabEnd (n + 1) (ds ++ rest) = some (ds, rest) := by
  have h : chompDigits (n + 1) (ds ++ rest) = some (ds, rest) := by
    rw [← hlen]; exact chompDigits_exact ds rest hdig
  conv_lhs => rw [grabEnd]
  rw [h]

theorem isDig_bne (c d : Char) (hc : isDig c = true) (hd : isDig d = false) :
    (c == d) = false := by
  cases h' : c == d
  · rfl
  · have : c = d := by exact beq_iff_eq.mp h'
    rw [this, hd] at hc
    exact absurd hc (by simp)

theorem tryDate_enc (Y M D : Nat) (rest : List Char) :
    tryDate (zeroPad 4 Y ++ '-' :: (zeroPad 2 M ++ '-' :: (zeroPad 2 D ++ rest)))
      = some (zeroPad 4 Y, zeroPad 2 M, zeroPad 2 D) := by
  have h4 : chompDigits 4 (zeroPad 4 Y ++ '-' :: (zeroPad 2 M ++ '-' :: (zeroPad 2 D ++ rest)))
      = some (zeroPad 4 Y, '-' :: (zeroPad 2 M ++ '-' :: (zeroPad 2 D ++ rest))) := by
    have := chompDigits_exact (zeroPad 4 Y) ('-' :: (zeroPad 2 M ++ '-' :: (zeroPad 2 D ++ rest)))
      (digits_zeroPad 4 Y)
    rwa [length_zeroPad] at this
  have hg : grabUpTo '-' 2 (zeroPad 2 M ++ '-' :: (zeroPad 2 D ++ rest))
      = some (zeroPad 2 M, zeroPad 2 D ++ rest) :=
    grabUpTo_hit '-' 1 (zeroPad 2 M) (zeroPad 2 D ++ rest) (digits_zeroPad 2 M) (length_zeroPad 2 M)
  have he : grabEnd 2 (zeroPad 2 D ++ rest) = some (zeroPad 2 D, rest) :=
    grabEnd_hit 1 (zeroPad 2 D) rest (digits_zeroPad 2 D) (length_zeroPad 2 D)
  unfold tryDate
  rw [h4]
  simp [hg, he]

theorem findDate_of_try (c : Char) (cs : List Char) (g : List Char × List Char × List Char)
    (h : tryDate (c :: cs) = some g) : findDate (c :: cs) = some g := by
  unfold findDate
  rw [h]

theorem findDate_enc (Y M D : Nat) (rest : List Char) :
    findDate (zeroPad 4 Y ++ '-' :: (zeroPad 2 M ++ '-' :: (zeroPad 2 D ++ rest)))
      = some (zeroPad 4 Y, zeroPad 2 M, zeroPad 2 D) := by
  have h := tryDate_enc Y M D rest
  have h2 : zeroPad 4 Y = Nat.digitChar (Y / 10 ^ 3 % 10) :: zeroPad 3 Y := zeroPad_succ 3 Y
  rw [h2, List.cons_append] at h ⊢
  exact findDate_of_try _ _ _ h

theorem isDig_digitChar_mod (x : Nat) : isDig (Nat.digitChar (x % 10)) = true :=
  digitChar_isDig _ (Nat.mod_lt _ (by omega))

theorem isDig_not_sign (c : Char) (hc : isDig c = true) : (c == '+' || c == '-') = false := by
  rw [isDig_bne c '+' hc (by decide), isDig_bne c '-' hc (by decide)]
  rfl

theorem zeroPad_two (n : Nat) :
    zeroPad 2 n = [Nat.digitChar (n / 10 % 10), Nat.digitChar (n % 10)] := by
  have h1 : zeroPad 2 n = Nat.digitChar (n / 10 ^ 1 % 10) :: zeroPad 1 n := zeroPad_succ 1 n
  have h2 : zeroPad 1 n = Nat.digitChar (n / 10 ^ 0 % 10) :: zeroPad 0 n := zeroPad_succ 0 n
  have h3 : zeroPad 0 n = [] := rfl
  rw [h1, h2, h3]
  norm_num

theorem zeroPad_three (n : Nat) :
    zeroPad 3 n = [Nat.digitChar (n / 100 % 10), Nat.digitChar (n / 10 % 10),
      Nat.digitChar (n % 10)] := by
  have h1 : zeroPad 3 n = Nat.digitChar (n / 10 ^ 2 % 10) :: zeroPad 2 n := zeroPad_succ 2 n
  rw [h1, zeroPad_two]
  norm_num

theorem zeroPad_four (n : Nat) :
    zeroPad 4 n = [Nat.digitChar (n / 1000 % 10), Nat.digitChar (n / 100 % 10),
      Nat.digitChar (n / 10 % 10), Nat.digitChar (n % 10)] := by
  have h1 : zeroPad 4 n = Nat.digitChar (n / 10 ^ 3 % 10) :: zeroPad 3 n := zeroPad_succ 3 n
  rw [h1, zeroPad_three]
  norm_num

theorem tryTime_hit (a1 a0 b1 b0 c1 c0 f2 f1 f0 : Char) (rest : List Char)
    (ha1 : isDig a1 = true) (ha0 : isDig a0 = true) (hb1 : isDig b1 = true)
    (hb0 : isDig b0 = true) (hc1 : isDig c1 = true) (hc0 : isDig c0 = true)
    (hf2 : isDig f2 = true) (hf1 : isDig f1 = true) (hf0 : isDig f0 = true) :
    tryTime (a1 :: a0 :: ':' :: b1 :: b0 :: ':' :: c1 :: c0 :: '.' :: f2 :: f1 :: f0 :: rest)
      = some ([a1, a0], [b1, b0], [c1, c0], [f2, f1, f0]) := by
  simp [tryTime, ha1, ha0, hb1, hb0, hc1, hc0, hf2, hf1, hf0]

theorem findTime_of_try (c : Char) (cs : List Char)
    (g : List Char × List Char × List Char × List Char)
    (h : tryTime (c :: cs) = some g) : findTime (c :: cs) = some g := by
  conv_lhs => rw [findTime]
  rw [h]

theorem findTime_skip (c : Char) (cs : List Char) (h : tryTime (c :: cs) = none) :
    findTime (c :: cs) = findTime cs := by
  conv_lhs => rw [findTime]
  rw [h]

theorem findTime_timeFirst (a1 a0 b1 b0 c1 c0 f2 f1 f0 : Char) (rest : List Char)
    (ha1 : isDig a1 = true) (ha0 : isDig a0 = true) (hb1 : isDig b1 = true)
    (hb0 : isDig b0 = true) (hc1 : isDig c1 = true) (hc0 : isDig c0 = true)
    (hf2 : isDig f2 = true) (hf1 : isDig f1 = true) (hf0 : isDig f0 = true) :
    findTime (a1 :: a0 :: ':' :: b1 :: b0 :: ':' :: c1 :: c0 :: '.' :: f2 :: f1 :: f0 :: rest)
      = some ([a1, a0], [b1, b0], [c1, c0], [f2, f1, f0]) :=
  findTime_of_try _ _ _ (tryTime_hit a1 a0 b1 b0 c1 c0 f2 f1 f0 rest
    ha1 ha0 hb1 hb0 hc1 hc0 hf2 hf1 hf0)

theorem findTime_dateTime (y3 y2 y1 y0 m1 m0 d1 d0 a1 a0 b1 b0 c1 c0 f2 f1 f0 : Char)
    (rest : List Char)
    (hy1 : isDig y1 = true) (hy0 : isDig y0 = true)
    (ha1 : isDig a1 = true) (ha0 : isDig a0 = true) (hb1 : isDig b1 = true)
    (hb0 : isDig b0 = true) (hc1 : isDig c1 = true) (hc0 : isDig c0 = true)
    (hf2 : isDig f2 = true) (hf1 : isDig f1 = true) (hf0 : isDig f0 = true) :
    findTime (y3 :: y2 :: y1 :: y0 :: '-' :: m1 :: m0 :: '-' :: d1 :: d0 :: ' '
        :: a1 :: a0 :: ':' :: b1 :: b0 :: ':' :: c1 :: c0 :: '.' :: f2 :: f1 :: f0 :: rest)
      = some ([a1, a0], [b1, b0], [c1, c0], [f2, f1, f0]) := by
  rw [findTime_skip _ _ (by simp [tryTime, isDig_bne y1 ':' hy1 (by decide)])]
  rw [findTime_skip _ _ (by simp [tryTime, isDig_bne y0 ':' hy0 (by decide)])]
  rw [findTime_skip _ _ (by simp [tryTime, show ('-' == ':') = false from by decide])]
  rw [findTime_skip _ _ (by simp [tryTime, show isDig '-' = false from by decide])]
  rw [findTime_skip _ _ (by simp [tryTime, show isDig '-' = false from by decide])]
  rw [findTime_skip _ _ (by simp [tryTime, show ('-' == ':') = false from by decide])]
  rw [findTime_skip _ _ (by simp [tryTime, show isDig '-' = false from by decide])]
  rw [findTime_skip _ _ (by simp [tryTime, show isDig '-' = false from by decide])]
  rw [findTime_skip _ _ (by simp [tryTime, show (' ' == ':') = false from by decide])]
  rw [findTime_skip _ _ (by simp [tryTime, show isDig ' ' = false from by decide])]
  rw [findTime_skip _ _ (by simp [tryTime, show isDig ' ' = false from by decide])]
  exact findTime_timeFirst a1 a0 b1 b0 c1 c0 f2 f1 f0 rest
    ha1 ha0 hb1 hb0 hc1 hc0 hf2 hf1 hf0

theorem findZone_of_try (c : Char) (cs : List Char) (g : Char × List Char × List Char)
    (h : tryZone (c :: cs) = some g) : findZone (c :: cs) = some g := by
  conv_lhs => rw [findZone]
  rw [h]

theorem findZone_skip (c : Char) (cs : List Char) (h : (c == '+' || c == '-') = false) :
    findZone (c :: cs) = findZone cs := by
  have ht : tryZone (c :: cs) = none := by
    simp only [tryZone]
    rw [h]
    simp
  conv_lhs => rw [findZone]
  rw [ht]

theorem findZone_dash_skip (m1 m0 x : Char) (xs : List Char)
    (hm1 : isDig m1 = true) (hm0 : isDig m0 = true) (hx : (x == ':') = false) :
    findZone ('-' :: m1 :: m0 :: x :: xs) = findZone (m1 :: m0 :: x :: xs) := by
  have e2 : chompDigits 2 (m1 :: m0 :: x :: xs) = some ([m1, m0], x :: xs) :=
    chompDigits_exact [m1, m0] (x :: xs) (by intro c hc; fin_cases hc <;> assumption)
  have e1 : chompDigits 1 (m1 :: m0 :: x :: xs) = some ([m1], m0 :: x :: xs) :=
    chompDigits_exact [m1] (m0 :: x :: xs) (by intro c hc; fin_cases hc <;> assumption)
  have g2 : grabUpTo ':' 2 (m1 :: m0 :: x :: xs)
      = if x == ':' then some ([m1, m0], xs) else grabUpTo ':' 1 (m1 :: m0 :: x :: xs) :=
    grabUpTo_step ':' 1 _ _ _ _ e2
  have g1 : grabUpTo ':' 1 (m1 :: m0 :: x :: xs)
      = if m0 == ':' then some ([m1], x :: xs) else grabUpTo ':' 0 (m1 :: m0 :: x :: xs) :=
    grabUpTo_step ':' 0 _ _ _ _ e1
  have ht : tryZone ('-' :: m1 :: m0 :: x :: xs) = none := by
    simp only [tryZone]
    rw [if_pos (by decide), g2, hx, g1, isDig_bne m0 ':' hm0 (by decide), grabUpTo_zero]
    simp
  conv_lhs => rw [findZone]
  rw [ht]

theorem tryZone_hit (sg u1 u0 v1 v0 : Char) (rest : List Char)
    (hsg : (sg == '+' || sg == '-') = true)
    (hu1 : isDig u1 = true) (hu0 : isDig u0 = true)
    (hv1 : isDig v1 = true) (hv0 : isDig v0 = true) :
    tryZone (sg :: u1 :: u0 :: ':' :: v1 :: v0 :: rest)
      = some (sg, [u1, u0], [v1, v0]) := by
  have g2 : grabUpTo ':' 2 (u1 :: u0 :: ':' :: v1 :: v0 :: rest)
      = some ([u1, u0], v1 :: v0 :: rest) :=
    grabUpTo_hit ':' 1 [u1, u0] (v1 :: v0 :: rest)
      (by intro c hc; fin_cases hc <;> assumption) rfl
  have e2 : grabEnd 2 (v1 :: v0 :: rest) = some ([v1, v0], rest) :=
    grabEnd_hit 1 [v1, v0] rest (by intro c hc; fin_cases hc <;> assumption) rfl
  simp only [tryZone]
  rw [if_pos hsg, g2]
  simp only [e2]

theorem findZone_timeFirst (a1 a0 b1 b0 c1 c0 f2 f1 f0 sg u1 u0 v1 v0 : Char)
    (rest : List Char)
    (ha1 : isDig a1 = true) (ha0 : isDig a0 = true) (hb1 : isDig b1 = true)
    (hb0 : isDig b0 = true) (hc1 : isDig c1 = true) (hc0 : isDig c0 = true)
    (hf2 : isDig f2 = true) (hf1 : isDig f1 = true) (hf0 : isDig f0 = true)
    (hsg : (sg == '+' || sg == '-') = true)
    (hu1 : isDig u1 = true) (hu0 : isDig u0 = true)
    (hv1 : isDig v1 = true) (hv0 : isDig v0 = true) :
    findZone (a1 :: a0 :: ':' :: b1 :: b0 :: ':' :: c1 :: c0 :: '.' :: f2 :: f1 :: f0 :: ' '
        :: sg :: u1 :: u0 :: ':' :: v1 :: v0 :: rest)
      = some (sg, [u1, u0], [v1, v0]) := by
  rw [findZone_skip _ _ (isDig_not_sign a1 ha1)]
  rw [findZone_skip _ _ (isDig_not_sign a0 ha0)]
  rw [findZone_skip _ _ (by decide)]
  rw [findZone_skip _ _ (isDig_not_sign b1 hb1)]
  rw [findZone_skip _ _ (isDig_not_sign b0 hb0)]
  rw [findZone_skip _ _ (by decide)]
  rw [findZone_skip _ _ (isDig_not_sign c1 hc1)]
  rw [findZone_skip _ _ (isDig_not_sign c0 hc0)]
  rw [findZone_skip _ _ (by decide)]
  rw [findZone_skip _ _ (isDig_not_sign f2 hf2)]
  rw [findZone_skip _ _ (isDig_not_sign f1 hf1)]
  rw [findZone_skip _ _ (isDig_not_sign f0 hf0)]
  rw [findZone_skip _ _ (by decide)]
  exact findZone_of_try _ _ _ (tryZone_hit sg u1 u0 v1 v0 rest hsg hu1 hu0 hv1 hv0)

theorem findZone_dateTimeZone (y3 y2 y1 y0 m1 m0 d1 d0 a1 a0 b1 b0 c1 c0 f2 f1 f0
    sg u1 u0 v1 v0 : Char) (rest : List Char)
    (hy3 : isDig y3 = true) (hy2 : isDig y2 = true)
    (hy1 : isDig y1 = true) (hy0 : isDig y0 = true)
    (hm1 : isDig m1 = true) (hm0 : isDig m0 = true)
    (hd1 : isDig d1 = true) (hd0 : isDig d0 = true)
    (ha1 : isDig a1 = true) (ha0 : isDig a0 = true) (hb1 : isDig b1 = true)
    (hb0 : isDig b0 = true) (hc1 : isDig c1 = true) (hc0 : isDig c0 = true)
    (hf2 : isDig f2 = true) (hf1 : isDig f1 = true) (hf0 : isDig f0 = true)
    (hsg : (sg == '+' || sg == '-') = true)
    (hu1 : isDig u1 = true) (hu0 : isDig u0 = true)
    (hv1 : isDig v1 = true) (hv0 : isDig v0 = true) :
    findZone (y3 :: y2 :: y1 :: y0 :: '-' :: m1 :: m0 :: '-' :: d1 :: d0 :: ' '
        :: a1 :: a0 :: ':' :: b1 :: b0 :: ':' :: c1 :: c0 :: '.' :: f2 :: f1 :: f0 :: ' '
        :: sg :: u1 :: u0 :: ':' :: v1 :: v0 :: rest)
      = some (sg, [u1, u0], [v1, v0]) := by
  rw [findZone_skip _ _ (isDig_not_sign y3 hy3)]
  rw [findZone_skip _ _ (isDig_not_sign y2 hy2)]
  rw [findZone_skip _ _ (isDig_not_sign y1 hy1)]
  rw [findZone_skip _ _ (isDig_not_sign y0 hy0)]
  rw [findZone_dash_skip m1 m0 '-' _ hm1 hm0 (by decide)]
  rw [findZone_skip _ _ (isDig_not_sign m1 hm1)]
  rw [findZone_skip _ _ (isDig_not_sign m0 hm0)]
  rw [findZone_dash_skip d1 d0 ' ' _ hd1 hd0 (by decide)]
  rw [findZone_skip _ _ (isDig_not_sign d1 hd1)]
  rw [findZone_skip _ _ (isDig_not_sign d0 hd0)]
  rw [findZone_skip _ _ (by decide)]
  exact findZone_timeFirst a1 a0 b1 b0 c1 c0 f2 f1 f0 sg u1 u0 v1 v0 rest
    ha1 ha0 hb1 hb0 hc1 hc0 hf2 hf1 hf0 hsg hu1 hu0 hv1 hv0

theorem findDate_iso (t : Int) (rest : List Char)
    (h0 : 0 ≤ getUTCFullYear t) (h1 : getUTCFullYear t ≤ 9999) :
    findDate (isoDateChars t ++ rest)
      = some (zeroPad 4 (getUTCFullYear t).toNat, zeroPad 2 (getUTCMonth t + 1),
          zeroPad 2 (getUTCDate t)) := by
  unfold isoDateChars isoYearChars
  rw [if_pos ⟨h0, h1⟩]
  simp only [List.append_assoc, List.cons_append, List.nil_append]
  exact findDate_enc _ _ _ _

theorem findTime_isoTime (t : Int) (rest : List Char) :
    findTime (isoTimeChars t ++ rest)
      = some (zeroPad 2 (hourOf t).toNat, zeroPad 2 (minuteOf t).toNat,
          zeroPad 2 (secondOf t).toNat, zeroPad 3 (millisOf t).toNat) := by
  unfold isoTimeChars
  simp only [zeroPad_three, zeroPad_two, List.cons_append, List.append_assoc, List.nil_append]
  exact findTime_timeFirst _ _ _ _ _ _ _ _ _ _
    (isDig_digitChar_mod _) (isDig_digitChar_mod _) (isDig_digitChar_mod _)
    (isDig_digitChar_mod _) (isDig_digitChar_mod _) (isDig_digitChar_mod _)
    (isDig_digitChar_mod _) (isDig_digitChar_mod _) (isDig_digitChar_mod _)

theorem findTime_localTime (off t : Int) (rest : List Char) :
    findTime (localTimeChars off t ++ rest)
      = some (zeroPad 2 (getHours off t).toNat, zeroPad 2 (getMinutes off t).toNat,
          zeroPad 2 (getSeconds off t).toNat, zeroPad 3 (getMilliseconds off t).toNat) := by
  rw [localTimeChars_canonical]
  simp only [zeroPad_three, zeroPad_two, List.cons_append, List.append_assoc, List.nil_append]
  exact findTime_timeFirst _ _ _ _ _ _ _ _ _ _
    (isDig_digitChar_mod _) (isDig_digitChar_mod _) (isDig_digitChar_mod _)
    (isDig_digitChar_mod _) (isDig_digitChar_mod _) (isDig_digitChar_mod _)
    (isDig_digitChar_mod _) (isDig_digitChar_mod _) (isDig_digitChar_mod _)

theorem findTime_isoDateTime (t : Int) (rest : List Char)
    (h0 : 0 ≤ getUTCFullYear t) (h1 : getUTCFullYear t ≤ 9999) :
    findTime (isoDateChars t ++ ' ' :: (isoTimeChars t ++ rest))
      = some (zeroPad 2 (hourOf t).toNat, zeroPad 2 (minuteOf t).toNat,
          zeroPad 2 (secondOf t).toNat, zeroPad 3 (millisOf t).toNat) := by
  unfold isoDateChars isoYearChars isoTimeChars
  rw [if_pos ⟨h0, h1⟩]
  simp only [zeroPad_four, zeroPad_three, zeroPad_two, List.cons_append,
    List.append_assoc, List.nil_append]
  exact findTime_dateTime _ _ _ _ _ _ _ _ _ _ _ _ _ _ _ _ _ _
    (isDig_digitChar_mod _) (isDig_digitChar_mod _)
    (isDig_digitChar_mod _) (isDig_digitChar_mod _) (isDig_digitChar_mod _)
    (isDig_digitChar_mod _) (isDig_digitChar_mod _) (isDig_digitChar_mod _)
    (isDig_digitChar_mod _) (isDig_digitChar_mod _) (isDig_digitChar_mod _)

theorem findTime_isoDateLocalTime (t off : Int) (rest : List Char)
    (h0 : 0 ≤ getUTCFullYear t) (h1 : getUTCFullYear t ≤ 9999) :
    findTime (isoDateChars t ++ ' ' :: (localTimeChars off t ++ rest))
      = some (zeroPad 2 (getHours off t).toNat, zeroPad 2 (getMinutes off t).toNat,
          zeroPad 2 (getSeconds off t).toNat, zeroPad 3 (getMilliseconds off t).toNat) := by
  rw [localTimeChars_canonical]
  unfold isoDateChars isoYearChars
  rw [if_pos ⟨h0, h1⟩]
  simp only [zeroPad_four, zeroPad_three, zeroPad_two, List.cons_append,
    List.append_assoc, List.nil_append]
  exact findTime_dateTime _ _ _ _ _ _ _ _ _ _ _ _ _ _ _ _ _ _
    (isDig_digitChar_mod _) (isDig_digitChar_mod _)
    (isDig_digitChar_mod _) (isDig_digitChar_mod _) (isDig_digitChar_mod _)
    (isDig_digitChar_mod _) (isDig_digitChar_mod _) (isDig_digitChar_mod _)
    (isDig_digitChar_mod _) (isDig_digitChar_mod _) (isDig_digitChar_mod _)

theorem timezone_explicit (off : Int) (h : off.natAbs ≤ 840) :
    timezone off = (if off < 0 then '+' else '-')
      :: (zeroPad 2 (off.natAbs / 60) ++ ':' :: zeroPad 2 (off.natAbs % 60)) := by
  unfold timezone
  rw [padSliceK_eq_zeroPad 2 _ (by omega), padSliceK_eq_zeroPad 2 _ (by omega)]

theorem sign_is_sign (off : Int) :
    ((if off < 0 then '+' else '-') == '+' || (if off < 0 then '+' else '-') == '-') = true := by
  by_cases h : off < 0
  · rw [if_pos h]; rfl
  · rw [if_neg h]; rfl

theorem findZone_localZone (off t : Int) (rest : List Char) (h : off.natAbs ≤ 840) :
    findZone (localTimeChars off t ++ ' ' :: (timezone off ++ rest))
      = some ((if off < 0 then '+' else '-'), zeroPad 2 (off.natAbs / 60),
          zeroPad 2 (off.natAbs % 60)) := by
  rw [localTimeChars_canonical, timezone_explicit off h]
  simp only [zeroPad_three, zeroPad_two, List.cons_append, List.append_assoc, List.nil_append]
  exact findZone_timeFirst _ _ _ _ _ _ _ _ _ _ _ _ _ _ _
    (isDig_digitChar_mod _) (isDig_digitChar_mod _) (isDig_digitChar_mod _)
    (isDig_digitChar_mod _) (isDig_digitChar_mod _) (isDig_digitChar_mod _)
    (isDig_digitChar_mod _) (isDig_digitChar_mod _) (isDig_digitChar_mod _)
    (sign_is_sign off)
    (isDig_digitChar_mod _) (isDig_digitChar_mod _) (isDig_digitChar_mod _)
    (isDig_digitChar_mod _)

theorem findZone_tsZone (t off : Int) (rest : List Char) (h : off.natAbs ≤ 840)
    (h0 : 0 ≤ getUTCFullYear t) (h1 : getUTCFullYear t ≤ 9999) :
    findZone (isoDateChars t ++ ' ' :: (localTimeChars off t ++ ' ' :: (timezone off ++ rest)))
      = some ((if off < 0 then '+' else '-'), zeroPad 2 (off.natAbs / 60),
          zeroPad 2 (off.natAbs % 60)) := by
  rw [localTimeChars_canonical, timezone_explicit off h]
  unfold isoDateChars isoYearChars
  rw [if_pos ⟨h0, h1⟩]
  simp only [zeroPad_four, zeroPad_three, zeroPad_two, List.cons_append,
    List.append_assoc, List.nil_append]
  exact findZone_dateTimeZone _ _ _ _ _ _ _ _ _ _ _ _ _ _ _ _ _ _ _ _ _ _ _
    (isDig_digitChar_mod _) (isDig_digitChar_mod _) (isDig_digitChar_mod _)
    (isDig_digitChar_mod _) (isDig_digitChar_mod _) (isDig_digitChar_mod _)
    (isDig_digitChar_mod _) (isDig_digitChar_mod _) (isDig_digitChar_mod _)
    (isDig_digitChar_mod _) (isDig_digitChar_mod _) (isDig_digitChar_mod _)
    (isDig_digitChar_mod _) (isDig_digitChar_mod _) (isDig_digitChar_mod _)
    (isDig_digitChar_mod _) (isDig_digitChar_mod _)
    (sign_is_sign off)
    (isDig_digitChar_mod _) (isDig_digitChar_mod _) (isDig_digitChar_mod _)
    (isDig_digitChar_mod _)

theorem unformat_date_only (s : List Char) (refD : Option Int) (now off : Int)
    (gy gm gd : List Char) (hm : findDate s = some (gy, gm, gd)) :
    unformat ⟨true, false, false, false, false⟩ s refD now off
      = setUTCMillisecondsT (setUTCSecondsT (setUTCMinutesT (setUTCHoursT
          (setUTCDateT (setUTCMonthT (setUTCFullYearT now (digitsVal gy : Int))
            ((digitsVal gm : Int) - 1)) (digitsVal gd : Int)) 0) 0) 0) 0 := by
  unfold unformat
  simp [hm]

theorem unformat_time_only (s : List Char) (refD : Option Int) (now off : Int)
    (g1 g2 g3 g4 : List Char) (hm : findTime s = some (g1, g2, g3, g4)) :
    unformat ⟨false, true, false, false, false⟩ s refD now off
      = setUTCMillisecondsT (setUTCSecondsT (setUTCMinutesT (setUTCHoursT
          (setUTCDateT (setUTCMonthT (setUTCFullYearT now 0) 0) 1)
          (digitsVal g1 : Int)) (digitsVal g2 : Int)) (digitsVal g3 : Int))
          (digitsVal g4 : Int) := by
  unfold unformat
  simp [hm]

theorem unformat_date_time (s : List Char) (refD : Option Int) (now off : Int)
    (gy gm gd g1 g2 g3 g4 : List Char)
    (hd : findDate s = some (gy, gm, gd)) (ht : findTime s = some (g1, g2, g3, g4)) :
    unformat ⟨true, true, false, false, false⟩ s refD now off
      = setUTCMillisecondsT (setUTCSecondsT (setUTCMinutesT (setUTCHoursT
          (setUTCDateT (setUTCMonthT (setUTCFullYearT now (digitsVal gy : Int))
            ((digitsVal gm : Int) - 1)) (digitsVal gd : Int))
          (digitsVal g1 : Int)) (digitsVal g2 : Int)) (digitsVal g3 : Int))
          (digitsVal g4 : Int) := by
  unfold unformat
  simp [hd, ht]

theorem unformat_zoned_ts (s : List Char) (refD : Option Int) (now off : Int)
    (gy gm gd : List Char) (sc : Char) (gth gtm g1 g2 g3 g4 : List Char)
    (hd : findDate s = some (gy, gm, gd))
    (hzm : findZone s = some (sc, gth, gtm))
    (htm : findTime s = some (g1, g2, g3, g4)) :
    unformat ⟨true, true, true, false, false⟩ s refD now off
      = setDateT off (setMonthT off (setFullYearT off
          (if (0 + (digitsVal g1 : Int) * 3600000 + (digitsVal g2 : Int) * 60000
              + (digitsVal g3 : Int) * 1000 + (digitsVal g4 : Int) * 1) ≠ 0
           then (0 + (digitsVal g1 : Int) * 3600000 + (digitsVal g2 : Int) * 60000
              + (digitsVal g3 : Int) * 1000 + (digitsVal g4 : Int) * 1)
             - (if sc = '-' then (-1 : Int) else 1)
               * ((digitsVal gth : Int) * 3600000 + (digitsVal gtm : Int) * 60000)
           else (if sc = '-' then (-1 : Int) else 1)
               * ((digitsVal gth : Int) * 3600000 + (digitsVal gtm : Int) * 60000))
          (digitsVal gy : Int)) ((digitsVal gm : Int) - 1)) (digitsVal gd : Int) := by
  unfold unformat
  simp [hd, hzm, htm, optAdd]

theorem time_chain (t h m s ms : Int) (hh : 0 ≤ h ∧ h < 24) (hm : 0 ≤ m ∧ m < 60)
    (hs : 0 ≤ s ∧ s < 60) (hms : 0 ≤ ms ∧ ms < 1000) :
    setUTCMillisecondsT (setUTCSecondsT (setUTCMinutesT (setUTCHoursT t h) m) s) ms
      = makeDate (dayOf t) (makeTime h m s ms) := by
  unfold setUTCMillisecondsT setUTCSecondsT setUTCMinutesT setUTCHoursT makeDate makeTime
    dayOf hourOf minuteOf secondOf millisOf
  omega

theorem makeTime_decomp (t : Int) :
    makeTime (hourOf t) (minuteOf t) (secondOf t) (millisOf t) = todOf t := by
  unfold makeTime hourOf minuteOf secondOf millisOf todOf
  omega

theorem local_accum (x : Int) :
    0 + hourOf x * 3600000 + minuteOf x * 60000 + secondOf x * 1000 + millisOf x * 1
      = todOf x := by
  unfold hourOf minuteOf secondOf millisOf todOf
  omega

theorem monthLen_le_one : ∀ L < 2, ∀ m < 12, monthLen L m ≤ monthLen 1 m := by
  decide

theorem local_chain (off t Y M D : Int) :
    setDateT off (setMonthT off (setFullYearT off t Y) M) D
      = setUTCDateT (setUTCMonthT (setUTCFullYearT (localMs off t) Y) M) D
          + off * 60000 := by
  simp only [setDateT, setMonthT, setFullYearT, asLocal, localMs, add_sub_cancel_right]

theorem setUTCFullYearT_eq (t y : Int) :
    setUTCFullYearT t y
      = makeDate (makeDay y (getUTCMonth t) (getUTCDate t)) (todOf t) := rfl

theorem getUTC_makeDate (d x : Int) (h1 : 0 ≤ x) (h2 : x < 86400000) :
    getUTCFullYear (makeDate d x) = yearFromDay d
    ∧ getUTCMonth (makeDate d x) = monthFromDay d
    ∧ getUTCDate (makeDate d x) = dateFromDay d
    ∧ todOf (makeDate d x) = x := by
  have h := dayOf_makeDate d x h1 h2
  unfold getUTCFullYear getUTCMonth getUTCDate
  rw [h.1, h.2]
  exact ⟨rfl, rfl, rfl, rfl⟩

theorem day_chain (t Y M D : Int) (hM : 0 ≤ M ∧ M ≤ 11)
    (hdm : (getUTCDate t : Int) ≤ monthLen (leapN Y) (getUTCMonth t))
    (hdM : (getUTCDate t : Int) ≤ monthLen (leapN Y) M.toNat) :
    setUTCDateT (setUTCMonthT (setUTCFullYearT t Y) M) D
      = makeDate (makeDay Y M D) (todOf t) := by
  have htod := todOf_bounds t
  have hm11 := (monthFromDay_spec (dayOf t)).1
  have hdb := dateFromDay_bounds (dayOf t)
  have hMn : ((M.toNat : Int)) = M := by omega
  have hf1 := makeDay_fields Y (getUTCMonth t) (getUTCDate t) (by exact_mod_cast hm11)
    (by exact_mod_cast hdb.1) hdm
  have hs1 := getUTC_makeDate (makeDay Y (getUTCMonth t) (getUTCDate t)) (todOf t)
    htod.1 htod.2
  have hf2 := makeDay_fields Y (M.toNat) (getUTCDate t) (by omega)
    (by exact_mod_cast hdb.1) hdM
  have hs2 := getUTC_makeDate (makeDay Y (M.toNat) (getUTCDate t)) (todOf t)
    htod.1 htod.2
  rw [setUTCFullYearT_eq]
  unfold setUTCMonthT
  rw [hs1.1, hs1.2.2.1, hs1.2.2.2, hf1.1, hf1.2.2, ← hMn]
  unfold setUTCDateT
  rw [hs2.1, hs2.2.1, hs2.2.2.2, hf2.1, hf2.2.1]

theorem dateFromDay_le_monthLen (t : Int) (h : (getUTCDate t : Int) ≤ 28) (Y : Int)
    (m : Nat) (hm : m < 12) : (getUTCDate t : Int) ≤ monthLen (leapN Y) m := by
  have hLY := leapN_le Y
  have := monthLen_bounds (leapN Y) (by omega) m hm
  omega

theorem day_chain_year0 (t : Int) :
    setUTCDateT (setUTCMonthT (setUTCFullYearT t 0) 0) 1
      = makeDate (makeDay 0 0 1) (todOf t) := by
  have hdb := dateFromDay_bounds (dayOf t)
  have hm11 := (monthFromDay_spec (dayOf t)).1
  have hL := leapN_le (yearFromDay (dayOf t))
  have hle := monthLen_le_one (leapN (yearFromDay (dayOf t))) (by omega)
    (monthFromDay (dayOf t)) (by omega)
  have hmb := monthLen_bounds (leapN (yearFromDay (dayOf t))) (by omega)
    (monthFromDay (dayOf t)) (by omega)
  have hleap0 : leapN (0 : Int) = 1 := by decide
  have h31 : monthLen 1 0 = 31 := by decide
  apply day_chain t 0 0 1 ⟨by omega, by omega⟩
  · unfold getUTCDate getUTCMonth
    rw [hleap0]
    omega
  · unfold getUTCDate
    rw [hleap0]
    show ((dateFromDay (dayOf t) : Int)) ≤ monthLen 1 ((0 : Int).toNat)
    have h0 : ((0 : Int)).toNat = 0 := rfl
    rw [h0, h31]
    omega

theorem digitsVal_zp (k n : Nat) (h : n < 10 ^ k) : digitsVal (zeroPad k n) = n := by
  rw [digitsVal_zeroPad]
  exact Nat.mod_eq_of_lt h

theorem offP_eq (off : Int) (h : off.natAbs ≤ 840) :
    (if (if off < 0 then '+' else '-') = '-' then (-1 : Int) else 1)
      * ((digitsVal (zeroPad 2 (off.natAbs / 60)) : Int) * 3600000
         + (digitsVal (zeroPad 2 (off.natAbs % 60)) : Int) * 60000)
      = -(off * 60000) := by
  rw [digitsVal_zp 2 _ (by omega), digitsVal_zp 2 _ (by omega)]
  by_cases ho : off < 0
  · rw [if_pos ho, if_neg (by decide)]
    omega
  · rw [if_neg ho, if_pos rfl]
    omega

theorem isEmpty_false (l : List Char) (h : l ≠ []) : l.isEmpty = false := by
  cases l
  · exact absurd rfl h
  · rfl

theorem isoDateChars_ne_nil (t : Int) : isoDateChars t ≠ [] := by
  intro h
  have hl := congrArg List.length h
  unfold isoDateChars at hl
  simp [List.length_append] at hl

theorem timezone_ne_nil (off : Int) : timezone off ≠ [] := by
  unfold timezone
  exact List.cons_ne_nil _ _

theorem joinParts_d (d : List Char) (hd : d ≠ []) : joinParts d [] [] [] = d := by
  simp [joinParts, isEmpty_false _ hd]

theorem joinParts_t (tc : List Char) (ht : tc ≠ []) : joinParts [] tc [] [] = tc := by
  simp [joinParts, isEmpty_false _ ht]

theorem joinParts_dt (d tc : List Char) (hd : d ≠ []) (ht : tc ≠ []) :
    joinParts d tc [] [] = d ++ ' ' :: tc := by
  simp [joinParts, isEmpty_false _ hd, isEmpty_false _ ht]

theorem joinParts_tz (tc z : List Char) (ht : tc ≠ []) (hz : z ≠ []) :
    joinParts [] tc z [] = tc ++ ' ' :: z := by
  simp [joinParts, isEmpty_false _ ht, isEmpty_false _ hz]

theorem joinParts_dtz (d tc z : List Char) (hd : d ≠ []) (ht : tc ≠ []) (hz : z ≠ []) :
    joinParts d tc z [] = d ++ ' ' :: (tc ++ ' ' :: z) := by
  simp [joinParts, isEmpty_false _ hd, isEmpty_false _ ht, isEmpty_false _ hz]

theorem format_date_enc (t0 : Int) (rest : List Int) (off : Int) :
    format datePat (t0 :: rest) off = .ok (isoDateChars t0) := by
  unfold format
  simp only []
  rw [if_neg (by decide), if_neg (by decide)]
  rw [show formatDatePart (datePat.map upChar) t0 = isoDateChars t0 from by
        unfold formatDatePart; rw [if_pos (by decide)],
      show formatTimePartRaw (datePat.map upChar) off t0 = [] from by
        unfold formatTimePartRaw; rw [if_neg (by decide)],
      show formatZonePart (datePat.map upChar) off = [] from by
        unfold formatZonePart; rw [if_neg (by decide)],
      joinParts_d _ (isoDateChars_ne_nil t0)]

theorem format_time_enc (t0 : Int) (rest : List Int) (off : Int) :
    format timePat (t0 :: rest) off = .ok (isoTimeChars t0) := by
  unfold format
  simp only []
  rw [if_neg (by decide), if_neg (by decide)]
  rw [show formatDatePart (timePat.map upChar) t0 = [] from by
        unfold formatDatePart; rw [if_neg (by decide)],
      show formatTimePartRaw (timePat.map upChar) off t0 = isoTimeChars t0 from by
        unfold formatTimePartRaw; rw [if_pos (by decide), if_neg (by decide)],
      show formatZonePart (timePat.map upChar) off = [] from by
        unfold formatZonePart; rw [if_neg (by decide)],
      joinParts_t _ (isoTimeChars_ne_nil t0)]

theorem format_timeZ_enc (t0 : Int) (rest : List Int) (off : Int) :
    format (timePat ++ ' ' :: zonePat) (t0 :: rest) off
      = .ok (localTimeChars off t0 ++ ' ' :: timezone off) := by
  unfold format
  simp only []
  rw [if_neg (by decide), if_neg (by decide)]
  rw [show formatDatePart ((timePat ++ ' ' :: zonePat).map upChar) t0 = [] from by
        unfold formatDatePart; rw [if_neg (by decide)],
      show formatTimePartRaw ((timePat ++ ' ' :: zonePat).map upChar) off t0
          = localTimeChars off t0 from by
        unfold formatTimePartRaw; rw [if_pos (by decide), if_pos (by decide)],
      show formatZonePart ((timePat ++ ' ' :: zonePat).map upChar) off = timezone off from by
        unfold formatZonePart; rw [if_pos (by decide)],
      joinParts_tz _ _ (localTimeChars_ne_nil off t0) (timezone_ne_nil off)]

theorem format_ts_enc (t0 : Int) (rest : List Int) (off : Int) :
    format (datePat ++ ' ' :: timePat) (t0 :: rest) off
      = .ok (isoDateChars t0 ++ ' ' :: isoTimeChars t0) := by
  unfold format
  simp only []
  rw [if_neg (by decide), if_neg (by decide)]
  rw [show formatDatePart ((datePat ++ ' ' :: timePat).map upChar) t0 = isoDateChars t0 from by
        unfold formatDatePart; rw [if_pos (by decide)],
      show formatTimePartRaw ((datePat ++ ' ' :: timePat).map upChar) off t0
          = isoTimeChars t0 from by
        unfold formatTimePartRaw; rw [if_pos (by decide), if_neg (by decide)],
      show formatZonePart ((datePat ++ ' ' :: timePat).map upChar) off = [] from by
        unfold formatZonePart; rw [if_neg (by decide)],
      joinParts_dt _ _ (isoDateChars_ne_nil t0) (isoTimeChars_ne_nil t0)]

theorem format_tsZ_enc (t0 : Int) (rest : List Int) (off : Int) :
    format (datePat ++ ' ' :: (timePat ++ ' ' :: zonePat)) (t0 :: rest) off
      = .ok (isoDateChars t0 ++ ' ' :: (localTimeChars off t0 ++ ' ' :: timezone off)) := by
  unfold format
  simp only []
  rw [if_neg (by decide), if_neg (by decide)]
  rw [show formatDatePart ((datePat ++ ' ' :: (timePat ++ ' ' :: zonePat)).map upChar) t0
          = isoDateChars t0 from by
        unfold formatDatePart; rw [if_pos (by decide)],
      show formatTimePartRaw ((datePat ++ ' ' :: (timePat ++ ' ' :: zonePat)).map upChar) off t0
          = localTimeChars off t0 from by
        unfold formatTimePartRaw; rw [if_pos (by decide), if_pos (by decide)],
      show formatZonePart ((datePat ++ ' ' :: (timePat ++ ' ' :: zonePat)).map upChar) off
          = timezone off from by
        unfold formatZonePart; rw [if_pos (by decide)],
      joinParts_dtz _ _ _ (isoDateChars_ne_nil t0) (localTimeChars_ne_nil off t0)
        (timezone_ne_nil off)]

theorem decode_date (i off now : Int) (h0 : 0 ≤ getUTCFullYear i)
    (h1 : getUTCFullYear i ≤ 9999) (hnow : (getUTCDate now : Int) ≤ 28) :
    unformat ⟨true, false, false, false, false⟩ (isoDateChars i) none now off
      = dayOf i * 86400000 := by
  have hm12 : getUTCMonth i ≤ 11 := (monthFromDay_spec (dayOf i)).1
  have hdb : 1 ≤ getUTCDate i
      ∧ getUTCDate i ≤ monthLen (leapN (getUTCFullYear i)) (getUTCMonth i) :=
    dateFromDay_bounds (dayOf i)
  have hL := leapN_le (getUTCFullYear i)
  have hmb := monthLen_bounds (leapN (getUTCFullYear i)) (by omega) (getUTCMonth i)
    (by omega)
  have hnm : getUTCMonth now ≤ 11 := (monthFromDay_spec (dayOf now)).1
  have hfind : findDate (isoDateChars i) = some (zeroPad 4 (getUTCFullYear i).toNat,
      zeroPad 2 (getUTCMonth i + 1), zeroPad 2 (getUTCDate i)) := by
    have h := findDate_iso i [] h0 h1
    rwa [List.append_nil] at h
  rw [unformat_date_only _ _ _ _ _ _ _ hfind]
  have hvy : (digitsVal (zeroPad 4 (getUTCFullYear i).toNat) : Int) = getUTCFullYear i := by
    rw [digitsVal_zp 4 _ (by omega)]
    omega
  have hvm : (digitsVal (zeroPad 2 (getUTCMonth i + 1)) : Int) - 1 = (getUTCMonth i : Int) := by
    rw [digitsVal_zp 2 _ (by omega)]
    push_cast
    omega
  have hvd : (digitsVal (zeroPad 2 (getUTCDate i)) : Int) = (getUTCDate i : Int) := by
    rw [digitsVal_zp 2 _ (by omega)]
  have htn : ((getUTCMonth i : Int)).toNat = getUTCMonth i := by omega
  rw [hvy, hvm, hvd]
  rw [day_chain now (getUTCFullYear i) (getUTCMonth i) (getUTCDate i)
    ⟨by omega, by omega⟩
    (dateFromDay_le_monthLen now hnow _ _ (by omega))
    (by rw [htn]; exact dateFromDay_le_monthLen now hnow _ _ (by omega))]
  rw [zero_time_chain]
  have hinv : makeDay (getUTCFullYear i) (getUTCMonth i) (getUTCDate i) = dayOf i :=
    makeDay_inv (dayOf i)
  rw [(dayOf_makeDate _ _ (todOf_bounds now).1 (todOf_bounds now).2).1, hinv]

theorem decode_time (i off now : Int) :
    unformat ⟨false, true, false, false, false⟩ (isoTimeChars i) none now off
      = dateUTC 0 0 1 + todOf i := by
  have hhb := hourOf_bounds i
  have hmb := minuteOf_bounds i
  have hsb := secondOf_bounds i
  have hfb := millisOf_bounds i
  rw [← List.append_nil (isoTimeChars i)]
  rw [unformat_time_only _ _ _ _ _ _ _ _ (findTime_isoTime i [])]
  have hvh : (digitsVal (zeroPad 2 (hourOf i).toNat) : Int) = hourOf i := by
    rw [digitsVal_zp 2 _ (by omega)]
    omega
  have hvm : (digitsVal (zeroPad 2 (minuteOf i).toNat) : Int) = minuteOf i := by
    rw [digitsVal_zp 2 _ (by omega)]
    omega
  have hvs : (digitsVal (zeroPad 2 (secondOf i).toNat) : Int) = secondOf i := by
    rw [digitsVal_zp 2 _ (by omega)]
    omega
  have hvf : (digitsVal (zeroPad 3 (millisOf i).toNat) : Int) = millisOf i := by
    rw [digitsVal_zp 3 _ (by omega)]
    omega
  rw [hvh, hvm, hvs, hvf, day_chain_year0 now,
    time_chain _ _ _ _ _ ⟨hhb.1, hhb.2⟩ ⟨hmb.1, hmb.2⟩ ⟨hsb.1, hsb.2⟩ ⟨hfb.1, hfb.2⟩,
    (dayOf_makeDate _ _ (todOf_bounds now).1 (todOf_bounds now).2).1, makeTime_decomp]
  unfold dateUTC makeDate
  rfl

theorem decode_ts (i off now : Int) (h0 : 0 ≤ getUTCFullYear i)
    (h1 : getUTCFullYear i ≤ 9999) (hnow : (getUTCDate now : Int) ≤ 28) :
    unformat ⟨true, true, false, false, false⟩ (isoDateChars i ++ ' ' :: isoTimeChars i)
        none now off = i := by
  have hm12 : getUTCMonth i ≤ 11 := (monthFromDay_spec (dayOf i)).1
  have hdb : 1 ≤ getUTCDate i
      ∧ getUTCDate i ≤ monthLen (leapN (getUTCFullYear i)) (getUTCMonth i) :=
    dateFromDay_bounds (dayOf i)
  have hL := leapN_le (getUTCFullYear i)
  have hmb := monthLen_bounds (leapN (getUTCFullYear i)) (by omega) (getUTCMonth i)
    (by omega)
  have hnm : getUTCMonth now ≤ 11 := (monthFromDay_spec (dayOf now)).1
  have hhb := hourOf_bounds i
  have hmib := minuteOf_bounds i
  have hsb := secondOf_bounds i
  have hfb := millisOf_bounds i
  rw [← List.append_nil (isoTimeChars i)]
  rw [unformat_date_time _ _ _ _ _ _ _ _ _ _ _
    (findDate_iso i (' ' :: (isoTimeChars i ++ [])) h0 h1)
    (findTime_isoDateTime i [] h0 h1)]
  have hvy : (digitsVal (zeroPad 4 (getUTCFullYear i).toNat) : Int) = getUTCFullYear i := by
    rw [digitsVal_zp 4 _ (by omega)]
    omega
  have hvm : (digitsVal (zeroPad 2 (getUTCMonth i + 1)) : Int) - 1 = (getUTCMonth i : Int) := by
    rw [digitsVal_zp 2 _ (by omega)]
    push_cast
    omega
  have hvd : (digitsVal (zeroPad 2 (getUTCDate i)) : Int) = (getUTCDate i : Int) := by
    rw [digitsVal_zp 2 _ (by omega)]
  have hvh : (digitsVal (zeroPad 2 (hourOf i).toNat) : Int) = hourOf i := by
    rw [digitsVal_zp 2 _ (by omega)]
    omega
  have hvmi : (digitsVal (zeroPad 2 (minuteOf i).toNat) : Int) = minuteOf i := by
    rw [digitsVal_zp 2 _ (by omega)]
    omega
  have hvs : (digitsVal (zeroPad 2 (secondOf i).toNat) : Int) = secondOf i := by
    rw [digitsVal_zp 2 _ (by omega)]
    omega
  have hvf : (digitsVal (zeroPad 3 (millisOf i).toNat) : Int) = millisOf i := by
    rw [digitsVal_zp 3 _ (by omega)]
    omega
  have htn : ((getUTCMonth i : Int)).toNat = getUTCMonth i := by omega
  rw [hvy, hvm, hvd, hvh, hvmi, hvs, hvf]
  rw [day_chain now (getUTCFullYear i) (getUTCMonth i) (getUTCDate i)
    ⟨by omega, by omega⟩
    (dateFromDay_le_monthLen now hnow _ _ (by omega))
    (by rw [htn]; exact dateFromDay_le_monthLen now hnow _ _ (by omega))]
  rw [time_chain _ _ _ _ _ ⟨hhb.1, hhb.2⟩ ⟨hmib.1, hmib.2⟩ ⟨hsb.1, hsb.2⟩ ⟨hfb.1, hfb.2⟩,
    (dayOf_makeDate _ _ (todOf_bounds now).1 (todOf_bounds now).2).1, makeTime_decomp]
  have hinv : makeDay (getUTCFullYear i) (getUTCMonth i) (getUTCDate i) = dayOf i :=
    makeDay_inv (dayOf i)
  rw [hinv]
  unfold makeDate dayOf todOf
  omega

theorem local_accum2 (off t : Int) :
    0 + getHours off t * 3600000 + getMinutes off t * 60000 + getSeconds off t * 1000
      + getMilliseconds off t * 1 = todOf (localMs off t) :=
  local_accum (localMs off t)

theorem decode_timeZ (i off now : Int) (hoff : off.natAbs ≤ 840)
    (htod : todOf (localMs off i) ≠ 0) :
    unformat ⟨false, true, true, false, false⟩
        (localTimeChars off i ++ ' ' :: timezone off) none now off
      = dateUTC 0 0 1 + todOf (localMs off i) + off * 60000 := by
  have hhb : 0 ≤ getHours off i ∧ getHours off i < 24 := hourOf_bounds (localMs off i)
  have hmib : 0 ≤ getMinutes off i ∧ getMinutes off i < 60 := minuteOf_bounds (localMs off i)
  have hsb : 0 ≤ getSeconds off i ∧ getSeconds off i < 60 := secondOf_bounds (localMs off i)
  have hfb : 0 ≤ getMilliseconds off i ∧ getMilliseconds off i < 1000 :=
    millisOf_bounds (localMs off i)
  rw [← List.append_nil (timezone off)]
  rw [unformat_zoned_time _ _ _ _ _ _ _ _ _ _ _
    (findZone_localZone off i [] hoff)
    (findTime_localTime off i (' ' :: (timezone off ++ [])))]
  have hvh : (digitsVal (zeroPad 2 (getHours off i).toNat) : Int) = getHours off i := by
    rw [digitsVal_zp 2 _ (by omega)]
    omega
  have hvmi : (digitsVal (zeroPad 2 (getMinutes off i).toNat) : Int) = getMinutes off i := by
    rw [digitsVal_zp 2 _ (by omega)]
    omega
  have hvs : (digitsVal (zeroPad 2 (getSeconds off i).toNat) : Int) = getSeconds off i := by
    rw [digitsVal_zp 2 _ (by omega)]
    omega
  have hvf : (digitsVal (zeroPad 3 (getMilliseconds off i).toNat) : Int)
      = getMilliseconds off i := by
    rw [digitsVal_zp 3 _ (by omega)]
    omega
  rw [hvh, hvmi, hvs, hvf, local_accum2 off i, offP_eq off hoff, if_pos htod,
    sub_neg_eq_add, local_chain]
  have hT5 : localMs off (todOf (localMs off i) + off * 60000) = todOf (localMs off i) := by
    unfold localMs
    ring
  rw [hT5, day_chain_year0 (todOf (localMs off i))]
  have htt : todOf (todOf (localMs off i)) = todOf (localMs off i) := by
    unfold todOf
    omega
  rw [htt]
  unfold dateUTC makeDate
  ring

theorem decode_tsZ (i off now : Int) (h0 : 0 ≤ getUTCFullYear i)
    (h1 : getUTCFullYear i ≤ 9999) (hoff : off.natAbs ≤ 840)
    (htod : todOf (localMs off i) ≠ 0) :
    unformat ⟨true, true, true, false, false⟩
        (isoDateChars i ++ ' ' :: (localTimeChars off i ++ ' ' :: timezone off)) none now off
      = dayOf i * 86400000 + todOf (localMs off i) + off * 60000 := by
  have hm12 : getUTCMonth i ≤ 11 := (monthFromDay_spec (dayOf i)).1
  have hdb : 1 ≤ getUTCDate i
      ∧ getUTCDate i ≤ monthLen (leapN (getUTCFullYear i)) (getUTCMonth i) :=
    dateFromDay_bounds (dayOf i)
  have hL := leapN_le (getUTCFullYear i)
  have hmb := monthLen_bounds (leapN (getUTCFullYear i)) (by omega) (getUTCMonth i)
    (by omega)
  have hhb : 0 ≤ getHours off i ∧ getHours off i < 24 := hourOf_bounds (localMs off i)
  have hmib : 0 ≤ getMinutes off i ∧ getMinutes off i < 60 := minuteOf_bounds (localMs off i)
  have hsb : 0 ≤ getSeconds off i ∧ getSeconds off i < 60 := secondOf_bounds (localMs off i)
  have hfb : 0 ≤ getMilliseconds off i ∧ getMilliseconds off i < 1000 :=
    millisOf_bounds (localMs off i)
  rw [← List.append_nil (timezone off)]
  rw [unformat_zoned_ts _ _ _ _ _ _ _ _ _ _ _ _ _ _
    (findDate_iso i (' ' :: (localTimeChars off i ++ ' ' :: (timezone off ++ []))) h0 h1)
    (findZone_tsZone i off [] hoff h0 h1)
    (findTime_isoDateLocalTime i off (' ' :: (timezone off ++ [])) h0 h1)]
  have hvy : (digitsVal (zeroPad 4 (getUTCFullYear i).toNat) : Int) = getUTCFullYear i := by
    rw [digitsVal_zp 4 _ (by omega)]
    omega
  have hvm : (digitsVal (zeroPad 2 (getUTCMonth i + 1)) : Int) - 1 = (getUTCMonth i : Int) := by
    rw [digitsVal_zp 2 _ (by omega)]
    push_cast
    omega
  have hvd : (digitsVal (zeroPad 2 (getUTCDate i)) : Int) = (getUTCDate i : Int) := by
    rw [digitsVal_zp 2 _ (by omega)]
  have hvh : (digitsVal (zeroPad 2 (getHours off i).toNat) : Int) = getHours off i := by
    rw [digitsVal_zp 2 _ (by omega)]
    omega
  have hvmi : (digitsVal (zeroPad 2 (getMinutes off i).toNat) : Int) = getMinutes off i := by
    rw [digitsVal_zp 2 _ (by omega)]
    omega
  have hvs : (digitsVal (zeroPad 2 (getSeconds off i).toNat) : Int) = getSeconds off i := by
    rw [digitsVal_zp 2 _ (by omega)]
    omega
  have hvf : (digitsVal (zeroPad 3 (getMilliseconds off i).toNat) : Int)
      = getMilliseconds off i := by
    rw [digitsVal_zp 3 _ (by omega)]
    omega
  rw [hvy, hvm, hvd, hvh, hvmi, hvs, hvf, local_accum2 off i, offP_eq off hoff, if_pos htod,
    sub_neg_eq_add, local_chain]
  have hT5 : localMs off (todOf (localMs off i) + off * 60000) = todOf (localMs off i) := by
    unfold localMs
    ring
  rw [hT5]
  have hday0 : dayOf (todOf (localMs off i)) = 0 := by
    unfold dayOf todOf
    omega
  have hgd1 : getUTCDate (todOf (localMs off i)) = 1 := by
    unfold getUTCDate
    rw [hday0]
    decide
  have hbm : getUTCMonth (todOf (localMs off i)) ≤ 11 :=
    (monthFromDay_spec (dayOf (todOf (localMs off i)))).1
  have hmbB := monthLen_bounds (leapN (getUTCFullYear i)) (by omega)
    (getUTCMonth (todOf (localMs off i))) (by omega)
  have htn : ((getUTCMonth i : Int)).toNat = getUTCMonth i := by omega
  have hmbM := monthLen_bounds (leapN (getUTCFullYear i)) (by omega) (getUTCMonth i)
    (by omega)
  rw [day_chain (todOf (localMs off i)) (getUTCFullYear i) (getUTCMonth i) (getUTCDate i)
    ⟨by omega, by omega⟩
    (by rw [hgd1]; omega)
    (by rw [hgd1, htn]; omega)]
  have hinv : makeDay (getUTCFullYear i) (getUTCMonth i) (getUTCDate i) = dayOf i :=
    makeDay_inv (dayOf i)
  have htt : todOf (todOf (localMs off i)) = todOf (localMs off i) := by
    unfold todOf
    omega
  rw [hinv, htt]
  unfold makeDate
  ring

/-- C4 (amended): encode/decode round trips, under the conditions the
code actually needs: the instant's UTC year is 0..9999 (four digits),
the host offset is within 14 hours, the decoder's ambient clock `now`
sits on a UTC day-of-month of at most 28 (the decoder seeds its field
setters from `new Date()`, whose day can otherwise overflow the target
month before `setUTCDate` runs), and for zoned kinds the local time of
day is nonzero (an accumulated zero flips the offset sign).  Then:
DATE round-trips to the UTC midnight of the instant's day; unzoned
TIME to the 0000-01-01 sentinel plus the exact UTC time of day;
unzoned TIMESTAMP to the instant itself; zoned TIME to the sentinel
plus the LOCAL time of day shifted back by the offset; zoned
TIMESTAMP to the instant's UTC day plus local time of day plus offset
— which differs from the instant itself, because the UTC date fields
are re-applied through LOCAL setters. -/
theorem C4_roundtrip_amended (i off now : Int)
    (h0 : 0 ≤ getUTCFullYear i) (h1 : getUTCFullYear i ≤ 9999)
    (hoff : off.natAbs ≤ 840) (hnow : (getUTCDate now : Int) ≤ 28)
    (htod : todOf (localMs off i) ≠ 0) :
    (format datePat [i] off = .ok (isoDateChars i)
      ∧ unformat ⟨true, false, false, false, false⟩ (isoDateChars i) none now off
          = dayOf i * 86400000)
    ∧ (format timePat [i] off = .ok (isoTimeChars i)
      ∧ unformat ⟨false, true, false, false, false⟩ (isoTimeChars i) none now off
          = dateUTC 0 0 1 + todOf i)
    ∧ (format (datePat ++ ' ' :: timePat) [i] off
          = .ok (isoDateChars i ++ ' ' :: isoTimeChars i)
      ∧ unformat ⟨true, true, false, false, false⟩ (isoDateChars i ++ ' ' :: isoTimeChars i)
          none now off = i)
    ∧ (format (timePat ++ ' ' :: zonePat) [i] off
          = .ok (localTimeChars off i ++ ' ' :: timezone off)
      ∧ unformat ⟨false, true, true, false, false⟩ (localTimeChars off i ++ ' ' :: timezone off)
          none now off = dateUTC 0 0 1 + todOf (localMs off i) + off * 60000)
    ∧ (format (datePat ++ ' ' :: (timePat ++ ' ' :: zonePat)) [i] off
          = .ok (isoDateChars i ++ ' ' :: (localTimeChars off i ++ ' ' :: timezone off))
      ∧ unformat ⟨true, true, true, false, false⟩
          (isoDateChars i ++ ' ' :: (localTimeChars off i ++ ' ' :: timezone off)) none now off
          = dayOf i * 86400000 + todOf (localMs off i) + off * 60000) :=
  ⟨⟨format_date_enc i [] off, decode_date i off now h0 h1 hnow⟩,
   ⟨format_time_enc i [] off, decode_time i off now⟩,
   ⟨format_ts_enc i [] off, decode_ts i off now h0 h1 hnow⟩,
   ⟨format_timeZ_enc i [] off, decode_timeZ i off now hoff htod⟩,
   ⟨format_tsZ_enc i [] off, decode_tsZ i off now h0 h1 hoff htod⟩⟩

/-- C4 counterexample: the claim as stated fails.  Encoding
2030-02-15 (a DATE) and decoding it when the ambient clock reads
2026-01-31 yields March 15, not February 15: `setUTCFullYear(2030)`
keeps the clock's day 31, `setUTCMonth(1)` then normalises February 31
into March 3, and only then does `setUTCDate(15)` run. -/
theorem C4_roundtrip_counterexample :
    format datePat [dateUTC 2030 1 15] 0 = .ok ("2030-02-15".toList)
    ∧ unformat ⟨true, false, false, false, false⟩ ("2030-02-15".toList) none
        (dateUTC 2026 0 31) 0 = dateUTC 2030 2 15
    ∧ getUTCMonth (dateUTC 2030 1 15) = 1
    ∧ getUTCMonth (dateUTC 2030 2 15) = 2 := by
  refine ⟨rfl, rfl, ?_, ?_⟩ <;> decide

/-- C4 witness: at offset 420, clock 2026-01-15, the unzoned
timestamp of 2030-01-01T12:34:56.789 round-trips to itself. -/
theorem C4_roundtrip_amended_witness :
    unformat ⟨true, true, false, false, false⟩
        (isoDateChars (dateUTC 2030 0 1 + 45296789) ++ ' '
          :: isoTimeChars (dateUTC 2030 0 1 + 45296789)) none (dateUTC 2026 0 15) 420
      = dateUTC 2030 0 1 + 45296789 :=
  (C4_roundtrip_amended (dateUTC 2030 0 1 + 45296789) 420 (dateUTC 2026 0 15)
    (by decide) (by decide) (by decide) (by decide) (by decide)).2.2.1.2

end MomentDB
